import Mathlib

/-!
Verification of the conversation extraction and rendering engine of
`chat_shared_conversation_to_file` (source: `src/src/index.ts`).

The TypeScript source is shallowly embedded: strings are `List Char`,
pure functions become Lean functions, the external libraries
(`markdown-it` rendering, `turndown` conversion, the WHATWG URL parser,
the Unicode property tables of the JS regex engine) are passed as
explicit function parameters, and the stateful browser-session handling
is modelled by explicit state passing.
-/

set_option maxHeartbeats 1000000
set_option maxRecDepth 100000

namespace CSCTF

/-- Strings of the TypeScript program, embedded as lists of characters. -/
abbrev Str := List Char

/-- ASCII lower-casing of one character.  This is the canonicalisation JS
applies for a case-insensitive (`/i`, non-Unicode) regex over an ASCII
pattern: only `A`-`Z` fold, every other code point is left alone. -/
def asciiLower (c : Char) : Char :=
  match c with
  | 'A' => 'a' | 'B' => 'b' | 'C' => 'c' | 'D' => 'd' | 'E' => 'e' | 'F' => 'f' | 'G' => 'g'
  | 'H' => 'h' | 'I' => 'i' | 'J' => 'j' | 'K' => 'k' | 'L' => 'l' | 'M' => 'm' | 'N' => 'n'
  | 'O' => 'o' | 'P' => 'p' | 'Q' => 'q' | 'R' => 'r' | 'S' => 's' | 'T' => 't' | 'U' => 'u'
  | 'V' => 'v' | 'W' => 'w' | 'X' => 'x' | 'Y' => 'y' | 'Z' => 'z'
  | c => c

/-- ASCII lower-casing of a string. -/
def lowerStr (l : Str) : Str := l.map asciiLower

theorem asciiLower_eq_lt {c : Char} (h : asciiLower c = '<') : c = '<' := by
  unfold asciiLower at h
  split at h <;> simp_all

theorem lowerStr_append (a b : Str) : lowerStr (a ++ b) = lowerStr a ++ lowerStr b :=
  List.map_append _ a b

theorem lowerStr_cons (c : Char) (l : Str) :
    lowerStr (c :: l) = asciiLower c :: lowerStr l := rfl

theorem lt_mem_of_lowerStr {l : Str} (h : '<' ∈ lowerStr l) : '<' ∈ l := by
  rcases List.mem_map.mp h with ⟨c, hc, hec⟩
  rcases asciiLower_eq_lt hec with rfl
  exact hc

/-- The whitespace class `\s` of JS regexes, which is also exactly the set of
characters removed by `String.prototype.trim`. -/
def isJsWs (c : Char) : Bool :=
  decide (c = ' ' ∨ c = '\t' ∨ c = '\n' ∨ c = '\r' ∨ c = '\u000B' ∨ c = '\u000C' ∨
    c = '\u00A0' ∨ c = '\u1680' ∨ ('\u2000' ≤ c ∧ c ≤ '\u200A') ∨ c = '\u2028' ∨
    c = '\u2029' ∨ c = '\u202F' ∨ c = '\u205F' ∨ c = '\u3000' ∨ c = '\uFEFF')

/-! ### Decomposition lemmas for affixes of concatenations -/

theorem sfx_append_cases {t A B : Str} (h : t <:+ A ++ B) :
    t <:+ B ∨ ∃ t₁, t₁ <:+ A ∧ t = t₁ ++ B := by
  induction A with
  | nil => exact Or.inl (by simpa using h)
  | cons a A' ih =>
    rcases h with ⟨p, hp⟩
    cases p with
    | nil =>
      refine Or.inr ⟨a :: A', List.suffix_refl _, ?_⟩
      simp only [List.nil_append] at hp
      simp [hp]
    | cons x p' =>
      have hx : p' ++ t = A' ++ B := by
        simp only [List.cons_append, List.cons.injEq] at hp
        exact hp.2
      rcases ih ⟨p', hx⟩ with hB | ⟨t₁, ht₁, rfl⟩
      · exact Or.inl hB
      · exact Or.inr ⟨t₁, ht₁.trans (List.suffix_cons a A'), rfl⟩

theorem pfx_append_cases {m X B : Str} (h : m <+: X ++ B) :
    m <+: X ∨ ∃ m₂, m = X ++ m₂ ∧ m₂ <+: B := by
  induction X generalizing m with
  | nil => exact Or.inr ⟨m, rfl, by simpa using h⟩
  | cons x X' ih =>
    cases m with
    | nil => exact Or.inl List.nil_prefix
    | cons c m' =>
      rcases h with ⟨t, ht⟩
      have hc : c = x := by
        simp only [List.cons_append, List.cons.injEq] at ht
        exact ht.1
      have hm' : m' <+: X' ++ B := by
        refine ⟨t, ?_⟩
        simp only [List.cons_append, List.cons.injEq] at ht
        exact ht.2
      rcases ih hm' with hX | ⟨m₂, rfl, hB⟩
      · exact Or.inl (by rw [hc]; exact List.cons_prefix_cons.mpr ⟨rfl, hX⟩)
      · exact Or.inr ⟨m₂, by rw [hc]; simp, hB⟩

theorem infix_append_cases {m A B : Str} (h : m <:+: A ++ B) :
    m <:+: A ∨ m <:+: B ∨
      ∃ m₁ m₂, m = m₁ ++ m₂ ∧ m₁ ≠ [] ∧ m₂ ≠ [] ∧ m₁ <:+ A ∧ m₂ <+: B := by
  induction A with
  | nil => exact Or.inr (Or.inl (by simpa using h))
  | cons a A' ih =>
    rw [List.cons_append, List.infix_cons_iff] at h
    rcases h with hpre | hin
    · rcases pfx_append_cases (show m <+: (a :: A') ++ B from hpre) with
        hX | ⟨m₂, rfl, hB⟩
      · exact Or.inl hX.isInfix
      · cases m₂ with
        | nil => exact Or.inl (by simp only [List.append_nil]; exact List.infix_refl _)
        | cons y m₂' =>
          exact Or.inr (Or.inr ⟨a :: A', y :: m₂', rfl, by simp, by simp,
            List.suffix_refl _, hB⟩)
    · rcases ih hin with hA | hB | ⟨m₁, m₂, rfl, h1, h2, hs, hp⟩
      · exact Or.inl (List.infix_cons hA)
      · exact Or.inr (Or.inl hB)
      · exact Or.inr (Or.inr ⟨m₁, m₂, rfl, h1, h2, hs.trans (List.suffix_cons a A'), hp⟩)

/-! ### The script-free invariant used for the rendered HTML document -/

/-- The forbidden tag opener, lower case. -/
def scriptPat : Str := ['<', 's', 'c', 'r', 'i', 'p', 't']

/-- `l` contains no case-insensitive occurrence of `<script`. -/
def noScript (l : Str) : Prop := ¬ scriptPat <:+: lowerStr l

/-- No nonempty proper prefix of `<script` is a suffix of `l` (case-insensitively):
appending further text to `l` cannot complete a `<script` across the seam. -/
def tailSafe (l : Str) : Prop :=
  ∀ k ∈ ([1, 2, 3, 4, 5, 6] : List Nat), ¬ scriptPat.take k <:+ lowerStr l

/-- No nonempty proper suffix of `<script` is a prefix of `l` (case-insensitively):
prepending further text to `l` cannot complete a `<script` across the seam. -/
def headSafe (l : Str) : Prop :=
  ∀ k ∈ ([1, 2, 3, 4, 5, 6] : List Nat), ¬ scriptPat.drop k <+: lowerStr l

/-- Strings that are script-free and safe to extend on the right. -/
def goodStr (l : Str) : Prop := noScript l ∧ tailSafe l

instance (l : Str) : Decidable (noScript l) := by unfold noScript; infer_instance
instance (l : Str) : Decidable (tailSafe l) := by unfold tailSafe; infer_instance
instance (l : Str) : Decidable (headSafe l) := by unfold headSafe; infer_instance
instance (l : Str) : Decidable (goodStr l) := by unfold goodStr; infer_instance

theorem noScript_append_of_tailSafe {A B : Str} (hA : noScript A) (hB : noScript B)
    (hT : tailSafe A) : noScript (A ++ B) := by
  intro h
  rw [lowerStr_append] at h
  rcases infix_append_cases h with h1 | h2 | ⟨m₁, m₂, hm, hne1, hne2, hs, _⟩
  · exact hA h1
  · exact hB h2
  · have hlen1 : m₁.length + m₂.length = 7 := by
      have := congrArg List.length hm
      simpa [scriptPat] using this.symm
    have htk : m₁ = scriptPat.take m₁.length := by
      rw [hm, List.take_left]
    have h1 : 1 ≤ m₁.length := by
      cases m₁ with
      | nil => exact absurd rfl hne1
      | cons _ _ => simp
    have h6 : m₁.length ≤ 6 := by
      by_contra hgt
      have : m₂.length = 0 := by omega
      exact hne2 (List.eq_nil_of_length_eq_zero this)
    have hk : m₁.length ∈ ([1, 2, 3, 4, 5, 6] : List Nat) := by
      simp only [List.mem_cons, List.not_mem_nil, or_false]
      omega
    exact hT m₁.length hk (htk ▸ hs)

theorem noScript_append_of_headSafe {A B : Str} (hA : noScript A) (hB : noScript B)
    (hH : headSafe B) : noScript (A ++ B) := by
  intro h
  rw [lowerStr_append] at h
  rcases infix_append_cases h with h1 | h2 | ⟨m₁, m₂, hm, hne1, hne2, _, hp⟩
  · exact hA h1
  · exact hB h2
  · have hlen1 : m₁.length + m₂.length = 7 := by
      have := congrArg List.length hm
      simpa [scriptPat] using this.symm
    have hdr : m₂ = scriptPat.drop m₁.length := by
      rw [hm, List.drop_left]
    have h1 : 1 ≤ m₁.length := by
      cases m₁ with
      | nil => exact absurd rfl hne1
      | cons _ _ => simp
    have h6 : m₁.length ≤ 6 := by
      by_contra hgt
      have : m₂.length = 0 := by omega
      exact hne2 (List.eq_nil_of_length_eq_zero this)
    have hk : m₁.length ∈ ([1, 2, 3, 4, 5, 6] : List Nat) := by
      simp only [List.mem_cons, List.not_mem_nil, or_false]
      omega
    exact hH m₁.length hk (hdr ▸ hp)

theorem tailSafe_append {A B : Str} (hA : tailSafe A) (hB : tailSafe B) :
    tailSafe (A ++ B) := by
  intro k hk h
  have hk6 : 1 ≤ k ∧ k ≤ 6 := by
    simp only [List.mem_cons, List.not_mem_nil, or_false] at hk
    omega
  rw [lowerStr_append] at h
  rcases sfx_append_cases h with h1 | ⟨t₁, ht₁, heq⟩
  · exact hB k hk h1
  · have hpr : t₁ <+: scriptPat.take k := ⟨lowerStr B, heq.symm⟩
    have hlt : t₁.length ≤ k := by
      have h1 := hpr.length_le
      have h2 : (scriptPat.take k).length ≤ k := by
        simp [List.length_take]
      omega
    have ht1eq : t₁ = scriptPat.take t₁.length := by
      rcases hpr with ⟨r, hr⟩
      have hh : (scriptPat.take k).take t₁.length = t₁ := by
        rw [← hr, List.take_left]
      rw [List.take_take, min_eq_left hlt] at hh
      exact hh.symm
    cases hlen : t₁.length with
    | zero =>
      have ht₁nil : t₁ = [] := List.eq_nil_of_length_eq_zero hlen
      rw [ht₁nil, List.nil_append] at heq
      exact hB k hk (heq ▸ List.suffix_refl _)
    | succ n =>
      have hk' : t₁.length ∈ ([1, 2, 3, 4, 5, 6] : List Nat) := by
        simp only [List.mem_cons, List.not_mem_nil, or_false]
        omega
      exact hA t₁.length hk' (ht1eq ▸ ht₁)

theorem good_append {A B : Str} (hA : goodStr A) (hB : goodStr B) : goodStr (A ++ B) :=
  ⟨noScript_append_of_tailSafe hA.1 hB.1 hA.2, tailSafe_append hA.2 hB.2⟩

theorem noScript_of_no_lt {l : Str} (h : '<' ∉ l) : noScript l := by
  intro hin
  have hmem : '<' ∈ lowerStr l := hin.mem (by simp [scriptPat])
  exact h (lt_mem_of_lowerStr hmem)

theorem tailSafe_of_no_lt {l : Str} (h : '<' ∉ l) : tailSafe l := by
  intro k hk hs
  have h1k : 1 ≤ k := by
    simp only [List.mem_cons, List.not_mem_nil, or_false] at hk
    omega
  have hmem : '<' ∈ lowerStr l := by
    apply hs.subset
    cases k with
    | zero => omega
    | succ n => simp [scriptPat]
  exact h (lt_mem_of_lowerStr hmem)

theorem good_of_no_lt {l : Str} (h : '<' ∉ l) : goodStr l :=
  ⟨noScript_of_no_lt h, tailSafe_of_no_lt h⟩

/-! ### Provider resolution (`PROVIDER_PATTERNS`, `detectProvider`) -/

/-- The closed provider enumeration of the tool. -/
inductive Provider
  | chatgpt
  | gemini
  | grok
  | claude
deriving DecidableEq, Repr

/-- `PROVIDER_PATTERNS` from the source.  Each entry regex has the form
`/host\.name$/i`; over the already lower-cased hostname this is exactly a
suffix test, so each pattern is embedded as the literal suffix it accepts. -/
def PROVIDER_PATTERNS : List (Provider × List Str) :=
  [ (.gemini, ["gemini.google.com".data]),
    (.grok, ["grok.com".data, "grok.x.ai".data]),
    (.claude, ["claude.ai".data]),
    (.chatgpt, ["chatgpt.com".data, "openai.com".data, "share.chatgpt.com".data]) ]

/-- `detectProvider` from the source.  The WHATWG URL parser (`new URL(url)`)
is external; it is embedded as a parameter `parseHost` returning the
hostname, or `none` when the constructor would throw (the source catches
that exception and ignores it). -/
def detectProvider (parseHost : Str → Option Str) (url : Str) : Provider :=
  match parseHost url with
  | some host =>
    let h := lowerStr host
    match PROVIDER_PATTERNS.find? (fun e => e.2.any (fun p => p.isSuffixOf h)) with
    | some e => e.1
    | none => .chatgpt
  | none => .chatgpt

/-- Modelled from the spec (§4.1): "parse hostname; test against an ordered
list of `{provider, hostPatterns}` entries; first match wins; no match
defaults to `chatgpt`", written as the explicit ordered decision chain. -/
def resolveProviderSpec (parseHost : Str → Option Str) (url : Str) : Provider :=
  match parseHost url with
  | none => .chatgpt
  | some host =>
    let h := lowerStr host
    if ("gemini.google.com".data).isSuffixOf h then .gemini
    else if ("grok.com".data).isSuffixOf h || ("grok.x.ai".data).isSuffixOf h then .grok
    else if ("claude.ai".data).isSuffixOf h then .claude
    else .chatgpt

/-! ### Scraped messages and the alternating-role fallback -/

/-- `MessageRole` from the source. -/
inductive MessageRole
  | assistant
  | user
  | system
  | tool
  | unknown
deriving DecidableEq, Repr

/-- `ScrapedMessage` from the source: a role and the cleaned inner HTML. -/
structure ScrapedMessage where
  role : MessageRole
  html : Str
deriving DecidableEq, Repr

/-- The alternating fallback pass (source lines 3253-3261): the k-th message
with role `unknown` (counting from `k₀`) becomes `user` for even k and
`assistant` for odd k; other messages pass through unchanged. -/
def altFallbackFrom (k₀ : Nat) : List ScrapedMessage → List ScrapedMessage
  | [] => []
  | m :: rest =>
    if m.role = .unknown then
      ⟨if k₀ % 2 = 0 then .user else .assistant, m.html⟩ :: altFallbackFrom (k₀ + 1) rest
    else
      m :: altFallbackFrom k₀ rest

/-- The alternating fallback as run by the source, starting at counter 0. -/
def altFallback (msgs : List ScrapedMessage) : List ScrapedMessage :=
  altFallbackFrom 0 msgs

/-- The default element used with `List.getD` when indexing message lists. -/
def dummyMsg : ScrapedMessage := ⟨.unknown, []⟩

theorem altFallbackFrom_length (k₀ : Nat) (msgs : List ScrapedMessage) :
    (altFallbackFrom k₀ msgs).length = msgs.length := by
  induction msgs generalizing k₀ with
  | nil => rfl
  | cons m rest ih =>
    unfold altFallbackFrom
    split <;> simp [ih]

theorem altFallbackFrom_getD (msgs : List ScrapedMessage) (k₀ i : Nat)
    (h : i < msgs.length) :
    (altFallbackFrom k₀ msgs).getD i dummyMsg =
      (let m := msgs.getD i dummyMsg
       if m.role = .unknown then
         ⟨if (k₀ + (msgs.take i).countP (fun x => x.role = .unknown)) % 2 = 0 then
            .user else .assistant, m.html⟩
       else m) := by
  induction msgs generalizing k₀ i with
  | nil => simp at h
  | cons m rest ih =>
    unfold altFallbackFrom
    cases i with
    | zero =>
      split <;> simp_all
    | succ j =>
      have hj : j < rest.length := by simpa using h
      by_cases hm : m.role = .unknown
      · rw [if_pos hm]
        have hrec := ih (k₀ + 1) j hj
        simp only [List.getD_cons_succ, List.take_succ_cons, List.countP_cons, hm] at *
        rw [hrec]
        have harith : k₀ + 1 + List.countP (fun x => decide (x.role = MessageRole.unknown)) (rest.take j)
            = k₀ + (List.countP (fun x => decide (x.role = MessageRole.unknown)) (rest.take j) + 1) := by
          omega
        simp [harith]
      · rw [if_neg hm]
        have hrec := ih k₀ j hj
        simp only [List.getD_cons_succ, List.take_succ_cons, List.countP_cons, hm] at *
        rw [hrec]
        simp [hm]

/-! ### C7: the provider resolver -/

/-- C7: for every input string (URL-parseable or not) the provider resolver
returns a value with no failure mode: it equals the spec-side ordered
first-match-wins decision chain, which yields `chatgpt` both when the URL
cannot be parsed and when no pattern matches the hostname.  The resolver is
a pure Lean function, so freedom from side effects and from exceptions is
inherent in the embedding. -/
theorem detectProvider_eq_spec (parseHost : Str → Option Str) (url : Str) :
    detectProvider parseHost url = resolveProviderSpec parseHost url := by
  unfold detectProvider resolveProviderSpec PROVIDER_PATTERNS
  cases hp : parseHost url with
  | none => rfl
  | some host =>
    simp only [List.find?, List.any_cons, List.any_nil, Bool.or_false]
    by_cases h1 : ("gemini.google.com".data).isSuffixOf (lowerStr host)
    · simp [h1]
    · simp only [h1, Bool.false_or, cond_false]
      by_cases h2 : ("grok.com".data).isSuffixOf (lowerStr host)
      · simp [h2]
      · simp only [h2, Bool.false_or, cond_false]
        by_cases h3 : ("grok.x.ai".data).isSuffixOf (lowerStr host)
        · simp [h3]
        · simp only [h3, Bool.false_or, cond_false]
          by_cases h4 : ("claude.ai".data).isSuffixOf (lowerStr host)
          · simp [h4]
          · simp only [h4, Bool.false_or, cond_false]
            by_cases h5 : ("chatgpt.com".data).isSuffixOf (lowerStr host)
            · simp [h5]
            · simp only [h5, Bool.false_or, cond_false]
              by_cases h6 : ("openai.com".data).isSuffixOf (lowerStr host)
              · simp [h6]
              · simp only [h6, Bool.false_or, cond_false]
                by_cases h7 : ("share.chatgpt.com".data).isSuffixOf (lowerStr host)
                · simp [h7]
                · simp [h7]

/-! ### C3: the alternating-fallback pass -/

/-- C3: over any ordered message list, the alternating fallback preserves
length (hence order, being index-wise) and every message's html, leaves
messages whose role is not `unknown` unchanged, and assigns to the k-th
`unknown` message in encounter order (k = number of `unknown` messages
strictly before it) the role `user` for even k and `assistant` for odd k,
independent of already-resolved roles.  The final conjunct is the spec's
example: `[unknown, assistant, unknown]` resolves to
`[user, assistant, assistant]`. -/
theorem altFallback_resolves (msgs : List ScrapedMessage) (i : Nat)
    (h : i < msgs.length) :
    (altFallback msgs).length = msgs.length ∧
    ((altFallback msgs).getD i dummyMsg).html = (msgs.getD i dummyMsg).html ∧
    ((msgs.getD i dummyMsg).role ≠ .unknown →
      (altFallback msgs).getD i dummyMsg = msgs.getD i dummyMsg) ∧
    ((msgs.getD i dummyMsg).role = .unknown →
      ((altFallback msgs).getD i dummyMsg).role =
        (if ((msgs.take i).countP (fun x => x.role = .unknown)) % 2 = 0 then
          MessageRole.user else MessageRole.assistant)) ∧
    altFallback [⟨.unknown, ['a']⟩, ⟨.assistant, ['b']⟩, ⟨.unknown, ['c']⟩] =
      [⟨.user, ['a']⟩, ⟨.assistant, ['b']⟩, ⟨.assistant, ['c']⟩] := by
  have key := altFallbackFrom_getD msgs 0 i h
  simp only [Nat.zero_add] at key
  refine ⟨altFallbackFrom_length 0 msgs, ?_, ?_, ?_, by decide⟩
  · unfold altFallback
    rw [key]
    split <;> simp
  · intro hne
    unfold altFallback
    rw [key, if_neg hne]
  · intro he
    unfold altFallback
    rw [key, if_pos he]

/-- Witness for C3 at the concrete input `[⟨unknown, "a"⟩]`, index 0. -/
theorem altFallback_resolves_witness :
    (0 < ([⟨.unknown, ['a']⟩] : List ScrapedMessage).length) ∧
    ((altFallback [⟨.unknown, ['a']⟩]).length =
        ([⟨.unknown, ['a']⟩] : List ScrapedMessage).length ∧
      ((altFallback [⟨.unknown, ['a']⟩]).getD 0 dummyMsg).html =
        (([⟨.unknown, ['a']⟩] : List ScrapedMessage).getD 0 dummyMsg).html ∧
      ((([⟨.unknown, ['a']⟩] : List ScrapedMessage).getD 0 dummyMsg).role ≠ .unknown →
        (altFallback [⟨.unknown, ['a']⟩]).getD 0 dummyMsg =
          ([⟨.unknown, ['a']⟩] : List ScrapedMessage).getD 0 dummyMsg) ∧
      ((([⟨.unknown, ['a']⟩] : List ScrapedMessage).getD 0 dummyMsg).role = .unknown →
        ((altFallback [⟨.unknown, ['a']⟩]).getD 0 dummyMsg).role =
          (if ((([⟨.unknown, ['a']⟩] : List ScrapedMessage).take 0).countP
                (fun x => x.role = .unknown)) % 2 = 0 then
            MessageRole.user else MessageRole.assistant)) ∧
      altFallback [⟨.unknown, ['a']⟩, ⟨.assistant, ['b']⟩, ⟨.unknown, ['c']⟩] =
        [⟨.user, ['a']⟩, ⟨.assistant, ['b']⟩, ⟨.assistant, ['c']⟩]) :=
  ⟨by decide, altFallback_resolves [⟨.unknown, ['a']⟩] 0 (by decide)⟩

/-! ### Trimming (JS `String.prototype.trim` / `trimEnd`) -/

/-- JS `trimStart`: remove leading whitespace. -/
def jsTrimStart (l : Str) : Str := l.dropWhile (fun c => isJsWs c)

/-- JS `trimEnd`: remove trailing whitespace. -/
def jsTrimEnd (l : Str) : Str := (l.reverse.dropWhile (fun c => isJsWs c)).reverse

/-- JS `trim`: remove leading and trailing whitespace. -/
def jsTrim (l : Str) : Str := jsTrimEnd (jsTrimStart l)

/-! ### C2: role completeness and the CDP extraction path

The attached (CDP/puppeteer) backend extracts messages inside a
`page.evaluate` callback; the DOM elements it reads are embedded as records
of the attributes the callback accesses.  Roles on this path are plain JS
strings (`"user"`, `"assistant"`, `"unknown"`, ...). -/

/-- Substring test (the embedding of JS `String.prototype.includes` and of an
unanchored literal regex test). -/
def containsStr (pat : Str) : Str → Bool
  | [] => pat.isPrefixOf []
  | c :: r => pat.isPrefixOf (c :: r) || containsStr pat r

/-- A DOM element as read by the CDP extraction callback. -/
structure DomNode where
  attrRole : Str
  testid : Str
  className : Str
  tagName : Str
  innerHTML : Str
  text : Str

/-- A `{ role, content }` record produced by the CDP extraction callback. -/
structure CdpMsg where
  role : Str
  content : Str
deriving DecidableEq, Repr

/-- The `^(?:#{1,6}\s*)?<who>\s+said` test (anchored, case-insensitive via a
pre-lowercased input) used as the GPT-5.2 header fallback.  `who` is the
lower-cased literal (`"chatgpt"` or `"you"`). -/
def saidHeaderTest (who t : Str) : Bool :=
  let litAt : Str → Bool := fun u =>
    who.isPrefixOf u &&
      (match u.drop who.length with
       | c :: r => isJsWs c && ("said".data).isPrefixOf (r.dropWhile (fun c => isJsWs c))
       | [] => false)
  let r := (t.takeWhile (fun c => c = '#')).length
  if r = 0 then litAt t
  else if r ≤ 6 then litAt ((t.drop r).dropWhile (fun c => isJsWs c))
  else false

/-- Role of one ChatGPT node in the CDP callback: the
`data-message-author-role` attribute, with the "You said:"/"ChatGPT said:"
text-header fallback when the attribute is empty or `unknown`. -/
def chatgptNodeRole (n : DomNode) : Str :=
  let role := n.attrRole
  if role = [] ∨ role = "unknown".data then
    let textStart := lowerStr (n.text.take 100)
    if saidHeaderTest ("chatgpt".data) textStart then "assistant".data
    else if saidHeaderTest ("you".data) textStart then "user".data
    else "unknown".data
  else role

/-- The provider branches plus the generic fallback of the CDP extraction
callback.  `nodes` are the elements matched by the provider-specific
selector, `genericNodes` those matched by the generic
`[class*="message"], article, [role="article"]` fallback query. -/
def cdpEvaluate (prov : Provider) (nodes genericNodes : List DomNode) : List CdpMsg :=
  let results : List CdpMsg :=
    match prov with
    | .chatgpt => nodes.map (fun n => ⟨chatgptNodeRole n, n.innerHTML⟩)
    | .claude => nodes.map (fun n =>
        ⟨if n.testid = "user-message".data then "user".data else "assistant".data,
         n.innerHTML⟩)
    | .gemini => nodes.map (fun n =>
        ⟨if lowerStr n.tagName = "user-query".data then "user".data else "assistant".data,
         n.innerHTML⟩)
    | .grok => nodes.map (fun n =>
        ⟨if n.attrRole ≠ [] then n.attrRole
         else if containsStr "user".data n.className then "user".data else "assistant".data,
         n.innerHTML⟩)
  if results = [] then
    genericNodes.filterMap (fun n =>
      let t := jsTrim n.text
      if t ≠ [] ∧ 10 < t.length then some ⟨"unknown".data, n.innerHTML⟩ else none)
  else results

/-- The alternating fallback loop of the CDP path (string roles). -/
def cdpAltFallbackFrom (k₀ : Nat) : List CdpMsg → List CdpMsg
  | [] => []
  | m :: rest =>
    if m.role = "unknown".data then
      ⟨if k₀ % 2 = 0 then "user".data else "assistant".data, m.content⟩ ::
        cdpAltFallbackFrom (k₀ + 1) rest
    else
      m :: cdpAltFallbackFrom k₀ rest

/-- The CDP path applies the alternating fallback only for chatgpt, grok and
gemini (source line 2745); claude is excluded. -/
def cdpApplyFallback (prov : Provider) (msgs : List CdpMsg) : List CdpMsg :=
  if prov = .chatgpt ∨ prov = .grok ∨ prov = .gemini then cdpAltFallbackFrom 0 msgs
  else msgs

/-- The message list the CDP path hands to Markdown conversion. -/
def cdpFinalMessages (prov : Provider) (nodes genericNodes : List DomNode) : List CdpMsg :=
  cdpApplyFallback prov (cdpEvaluate prov nodes genericNodes)

/-- The role heading label used when converting a CDP message
(source line 2872): an unresolved role is rendered as `Message`. -/
def cdpRoleLabel (role : Str) : Str :=
  if role = "user".data then "User".data
  else if role = "assistant".data then "Assistant".data
  else "Message".data

theorem cdpAltFallbackFrom_no_unknown (k₀ : Nat) (msgs : List CdpMsg) :
    ∀ m ∈ cdpAltFallbackFrom k₀ msgs, m.role ≠ "unknown".data := by
  induction msgs generalizing k₀ with
  | nil => intro m hm; simp [cdpAltFallbackFrom] at hm
  | cons x rest ih =>
    intro m hm
    unfold cdpAltFallbackFrom at hm
    by_cases hx : x.role = "unknown".data
    · rw [if_pos hx] at hm
      rcases List.mem_cons.mp hm with rfl | hmem
      · by_cases hk : k₀ % 2 = 0 <;> simp [hk]
      · exact ih (k₀ + 1) m hmem
    · rw [if_neg hx] at hm
      rcases List.mem_cons.mp hm with rfl | hmem
      · exact hx
      · exact ih k₀ m hmem

theorem altFallbackFrom_no_unknown (k₀ : Nat) (msgs : List ScrapedMessage) :
    ∀ m ∈ altFallbackFrom k₀ msgs, m.role ≠ .unknown := by
  induction msgs generalizing k₀ with
  | nil => intro m hm; simp [altFallbackFrom] at hm
  | cons x rest ih =>
    intro m hm
    unfold altFallbackFrom at hm
    by_cases hx : x.role = .unknown
    · rw [if_pos hx] at hm
      rcases List.mem_cons.mp hm with rfl | hmem
      · by_cases hk : k₀ % 2 = 0 <;> simp [hk]
      · exact ih (k₀ + 1) m hmem
    · rw [if_neg hx] at hm
      rcases List.mem_cons.mp hm with rfl | hmem
      · exact hx
      · exact ih k₀ m hmem

/-- The generic-fallback element used in the C2 counterexample: no
role-bearing attributes, conversation text longer than 10 characters. -/
def c2Node : DomNode :=
  ⟨[], [], [], [], "<p>hello world</p>".data, "hello world!".data⟩

/-- C2 counterexample: with provider `claude` on the CDP path, when the
claude-specific selector matches nothing and the generic fallback matches a
text node, the finalized message list handed to conversion contains a
message whose role is still `unknown` (the alternating fallback is skipped
for claude, source line 2745), and that role reaches the converter under
the generic `Message` heading.  This refutes the claim's universal
quantification over all four providers. -/
theorem c2_counterexample :
    cdpFinalMessages .claude [] [c2Node] =
      [⟨"unknown".data, "<p>hello world</p>".data⟩] ∧
    cdpRoleLabel "unknown".data = "Message".data := by
  constructor
  · rfl
  · rfl

/-- C2 amended: the role-completeness invariant holds for chatgpt, grok and
gemini on the CDP path (the alternating fallback clears every `unknown`),
holds on the scripted/Playwright path (which serves only those three
providers and applies the same fallback), and holds for claude whenever the
claude-specific extraction matches at least one node; only claude's
generic-fallback case (the counterexample) escapes it. -/
theorem c2_amended (prov : Provider)
    (hp : prov = .chatgpt ∨ prov = .grok ∨ prov = .gemini)
    (nodes genericNodes claudeNodes : List DomNode) (hc : claudeNodes ≠ []) :
    (∀ m ∈ cdpFinalMessages prov nodes genericNodes, m.role ≠ "unknown".data) ∧
    (∀ msgs : List ScrapedMessage, ∀ m ∈ altFallback msgs, m.role ≠ .unknown) ∧
    (∀ m ∈ cdpFinalMessages .claude claudeNodes genericNodes,
      m.role ≠ "unknown".data) := by
  refine ⟨?_, ?_, ?_⟩
  · intro m hm
    unfold cdpFinalMessages cdpApplyFallback at hm
    rw [if_pos hp] at hm
    exact cdpAltFallbackFrom_no_unknown 0 _ m hm
  · intro msgs m hm
    exact altFallbackFrom_no_unknown 0 msgs m hm
  · intro m hm
    unfold cdpFinalMessages cdpApplyFallback at hm
    have hnotp : ¬ (Provider.claude = .chatgpt ∨ Provider.claude = .grok ∨
        Provider.claude = .gemini) := by decide
    rw [if_neg hnotp] at hm
    unfold cdpEvaluate at hm
    have hne : (claudeNodes.map (fun n =>
        (⟨if n.testid = "user-message".data then "user".data else "assistant".data,
          n.innerHTML⟩ : CdpMsg))) ≠ [] := by
      simpa using hc
    simp only [if_neg hne] at hm
    rcases List.mem_map.mp hm with ⟨n, _, rfl⟩
    by_cases ht : n.testid = "user-message".data
    · simp [ht]
    · simp [ht]

/-- Witness for C2's amended theorem at concrete inputs. -/
theorem c2_amended_witness :
    ((Provider.chatgpt = .chatgpt ∨ Provider.chatgpt = .grok ∨
        Provider.chatgpt = .gemini) ∧ ([c2Node] : List DomNode) ≠ []) ∧
    ((∀ m ∈ cdpFinalMessages .chatgpt [c2Node] [c2Node], m.role ≠ "unknown".data) ∧
      (∀ msgs : List ScrapedMessage, ∀ m ∈ altFallback msgs, m.role ≠ .unknown) ∧
      (∀ m ∈ cdpFinalMessages .claude [c2Node] [c2Node], m.role ≠ "unknown".data)) :=
  ⟨⟨Or.inl rfl, by simp⟩,
    c2_amended .chatgpt (Or.inl rfl) [c2Node] [c2Node] [c2Node] (by simp)⟩

/-! ### Case-insensitive global literal replacement (JS `replace(/pat/gi, r)`)

The scanner walks left to right; at the head position it either recognises
the pattern (case-insensitively) and emits the replacement, or copies one
character.  `p :: pat'` is the (lower-case) pattern, so the pattern is
nonempty by construction and the scan always advances. -/
def replaceCI (p : Char) (pat' repl : Str) : Str → Str
  | [] => []
  | c :: rest =>
    if asciiLower c = p ∧ lowerStr (rest.take pat'.length) = pat' then
      repl ++ replaceCI p pat' repl (rest.drop pat'.length)
    else
      c :: replaceCI p pat' repl rest
termination_by l => l.length
decreasing_by
  all_goals simp only [List.length_cons, List.length_drop]
  all_goals omega

/-- `escapeExecutableTags` (source lines 656-661): escape `<script`,
`</script>`, `<style`, `</style>` case-insensitively, in that order. -/
def escapeExecutableTags (html : Str) : Str :=
  replaceCI '<' "/style>".data "&lt;/style&gt;".data
    (replaceCI '<' "style".data "&lt;style".data
      (replaceCI '<' "/script>".data "&lt;/script&gt;".data
        (replaceCI '<' "script".data "&lt;script".data html)))

/-! ### Newline and separator normalisation -/

/-- `normalizeLineTerminators` (source lines 1855-1858): replace the Unicode
LS and PS separators by a newline. -/
def normalizeLineTerminators (l : Str) : Str :=
  l.map (fun c => if c = '\u2028' ∨ c = '\u2029' then '\n' else c)

/-- Drop a leading run of newlines. -/
def dropNl (l : Str) : Str := l.dropWhile (fun c => c = '\n')

/-- `replace(/\n{3,}/g, "\n\n")`: each maximal run of three or more
newlines collapses to exactly two. -/
def collapseNewlines : Str → Str
  | '\n' :: '\n' :: '\n' :: rest => '\n' :: '\n' :: collapseNewlines (dropNl rest)
  | c :: rest => c :: collapseNewlines rest
  | [] => []
termination_by l => l.length
decreasing_by
  all_goals simp only [List.length_cons]
  · have h := (List.dropWhile_sublist (l := rest) (fun c => c = '\n')).length_le
    simp only [dropNl]
    omega
  · omega

/-- Replace every NBSP by a plain space (`replace(/\u00a0/g, ' ')`). -/
def nbspToSpace (l : Str) : Str := l.map (fun c => if c = '\u00A0' then ' ' else c)

/-- `replace(/\r\n?/g, '\n')`: normalise CRLF and lone CR to LF. -/
def crToLf : Str → Str
  | '\r' :: '\n' :: rest => '\n' :: crToLf rest
  | '\r' :: rest => '\n' :: crToLf rest
  | c :: rest => c :: crToLf rest
  | [] => []

/-- `replace(/\u00a0/g, ' ').replace(/&nbsp;/gi, ' ')` (source line 3295). -/
def normalizeNbsp (l : Str) : Str :=
  replaceCI '&' "nbsp;".data [' '] (nbspToSpace l)

/-! ### The per-message Markdown pipeline of `scrape` (Playwright path) -/

/-- Line terminators recognised by a multiline `$` / `^` in JS regexes. -/
def isLineTerm (c : Char) : Bool :=
  decide (c = '\n' ∨ c = '\r' ∨ c = '\u2028' ∨ c = '\u2029')

/-- Is this position an end of line (end of input or before a terminator)? -/
def atLineEnd : Str → Bool
  | [] => true
  | c :: _ => isLineTerm c

/-- Greatest `k` with `k ≤ bound` such that the position after `k` characters
of `l` is an end of line; the backtracking search of a greedy `\s*$`. -/
def largestLineEnd (l : Str) : Nat → Option Nat
  | 0 => if atLineEnd l then some 0 else none
  | k + 1 =>
    if atLineEnd (l.drop (k + 1)) then some (k + 1) else largestLineEnd l k

/-- Length matched by `^#{3,6}\s*(You said|ChatGPT said):?\s*$` (flags gim)
at a line-start position, or `none`.  The hash run must have length 3-6
(a longer run cannot backtrack into a match because the literal follows
non-hash, non-space); the final `\s*$` backtracks to the longest whitespace
prefix that ends at a line boundary. -/
def headerMatchLen (l : Str) : Option Nat :=
  let r := (l.takeWhile (fun c => c = '#')).length
  if 3 ≤ r ∧ r ≤ 6 then
    let afterHash := l.drop r
    let w1 := (afterHash.takeWhile (fun c => isJsWs c)).length
    let afterWs := afterHash.drop w1
    let litLen : Option Nat :=
      if ("you said".data).isPrefixOf (lowerStr afterWs) then some 8
      else if ("chatgpt said".data).isPrefixOf (lowerStr afterWs) then some 12
      else none
    match litLen with
    | none => none
    | some n =>
      let afterLit := afterWs.drop n
      let colonLen : Nat := match afterLit with
        | ':' :: _ => 1
        | _ => 0
      let afterColon := afterLit.drop colonLen
      let m := (afterColon.takeWhile (fun c => isJsWs c)).length
      match largestLineEnd afterColon m with
      | none => none
      | some k => some (r + w1 + n + colonLen + k)
  else none

/-- `replace(/^#{3,6}\s*(You said|ChatGPT said):?\s*$/gim, '')` (source
lines 2876 and 3304): delete every header artifact line.  `atStart` tracks
whether the current position is a line start (string start or just after a
line terminator). -/
def stripSaidHeaders (atStart : Bool) : Str → Str
  | [] => []
  | c :: rest =>
    if atStart then
      match headerMatchLen (c :: rest) with
      | some n =>
        -- the pattern consumes the whole #-run, so n ≥ 3; the guard is for
        -- termination only
        if _h : 0 < n then
          let consumed := (c :: rest).take n
          let nextStart := match consumed.getLast? with
            | some d => isLineTerm d
            | none => false
          stripSaidHeaders nextStart ((c :: rest).drop n)
        else c :: stripSaidHeaders (isLineTerm c) rest
      | none => c :: stripSaidHeaders (isLineTerm c) rest
    else c :: stripSaidHeaders (isLineTerm c) rest
termination_by l => l.length
decreasing_by
  all_goals simp only [List.length_cons, List.length_drop]
  all_goals omega

/-- `markdown.split('\n').filter(line => line.trim() !== 'text').join('\n')`
(source lines 3298-3301). -/
def filterTextLines (l : Str) : Str :=
  List.intercalate ['\n'] ((l.splitOn '\n').filter (fun line => jsTrim line ≠ "text".data))

/-- Length matched at `l` by
`/<(?:br\s*\/?|\/p|\/div|\/section|\/article)>/gi`, or `none`. -/
def tagMatchLen (l : Str) : Option Nat :=
  match l with
  | '<' :: rest =>
    let low := lowerStr rest
    if ("br".data).isPrefixOf low then
      let afterBr := rest.drop 2
      let w := (afterBr.takeWhile (fun c => isJsWs c)).length
      let afterW := afterBr.drop w
      match afterW with
      | '/' :: '>' :: _ => some (1 + 2 + w + 2)
      | '>' :: _ => some (1 + 2 + w + 1)
      | _ => none
    else if ("/p>".data).isPrefixOf low then some 4
    else if ("/div>".data).isPrefixOf low then some 6
    else if ("/section>".data).isPrefixOf low then some 10
    else if ("/article>".data).isPrefixOf low then some 10
    else none
  | _ => none

/-- `replace(/<(?:br\s*\/?|\/p|\/div|\/section|\/article)>/gi, '$&\n')`
(source line 3296): keep each matched tag and append a newline after it. -/
def tagNewlines : Str → Str
  | [] => []
  | c :: rest =>
    match tagMatchLen (c :: rest) with
    | some n =>
      if _h : 0 < n then
        (c :: rest).take n ++ '\n' :: tagNewlines ((c :: rest).drop n)
      else c :: tagNewlines rest
    | none => c :: tagNewlines rest
termination_by l => l.length
decreasing_by
  all_goals simp only [List.length_cons, List.length_drop]
  all_goals omega

/-- The whole per-message conversion of the Playwright path (source lines
3295-3305): nbsp normalisation and tag-newline insertion feed the turndown
conversion (external, a parameter); its output is filtered of stray `text`
lines, newline-collapsed, trimmed, stripped of said-header artifacts,
newline-collapsed again and trimmed again. -/
def perMessageMarkdown (turndown : Str → Str) (html : Str) : Str :=
  let htmlForTd := tagNewlines (normalizeNbsp html)
  let m0 := turndown htmlForTd
  let m1 := filterTextLines m0
  let m2 := jsTrim (collapseNewlines m1)
  jsTrim (collapseNewlines (stripSaidHeaders true m2))

/-- `stripProviderPrefix` (source line 613):
`replace(/^(ChatGPT|Gemini|Grok|Claude)\s*-?\s*/i, '')` then
`replace(/\s*\|\s*Claude$/i, '')`. -/
def stripProviderPrefix (title : Str) : Str :=
  let low := lowerStr title
  let lead : Nat :=
    let nameLen : Option Nat :=
      if ("chatgpt".data).isPrefixOf low then some 7
      else if ("gemini".data).isPrefixOf low then some 6
      else if ("grok".data).isPrefixOf low then some 4
      else if ("claude".data).isPrefixOf low then some 6
      else none
    match nameLen with
    | none => 0
    | some n =>
      let afterName := title.drop n
      let w1 := (afterName.takeWhile (fun c => isJsWs c)).length
      let afterW1 := afterName.drop w1
      let dashLen : Nat := match afterW1 with
        | '-' :: _ => 1
        | _ => 0
      let afterDash := afterW1.drop dashLen
      let w2 := (afterDash.takeWhile (fun c => isJsWs c)).length
      n + w1 + dashLen + w2
  let t1 := title.drop lead
  -- suffix `/\s*\|\s*Claude$/i`: leftmost start whose match reaches the end
  let rec findBar : Str → Option Nat
    | [] => none
    | c :: rest =>
      let w1 := ((c :: rest).takeWhile (fun d => isJsWs d)).length
      let afterW1 := (c :: rest).drop w1
      (match afterW1 with
       | '|' :: r2 =>
         let w2 := (r2.takeWhile (fun d => isJsWs d)).length
         let r3 := r2.drop w2
         if lowerStr r3 = "claude".data then some 0 else none
       | _ => none).orElse (fun _ => (findBar rest).map (fun i => i + 1))
  match findBar t1 with
  | some i => t1.take i
  | none => t1

/-- The `## <role>` heading label of the Playwright path (source 3283-3292). -/
def prettyRole (r : MessageRole) : Str :=
  match r with
  | .assistant => "Assistant".data
  | .user => "User".data
  | .system => "System".data
  | .tool => "Tool".data
  | .unknown => "Other".data

/-- The per-provider document heading prefix (source line 3274). -/
def headingProvider (p : Provider) : Str :=
  match p with
  | .gemini => "Gemini".data
  | .grok => "Grok".data
  | .claude => "Claude".data
  | .chatgpt => "ChatGPT".data

/-- Assembly of the final Markdown document of a successful Playwright-path
scrape (source lines 3272-3309): header lines, then `## Role` sections with
each message's converted markdown, joined by newlines, with the Unicode
line/paragraph separators normalised at the very end. -/
def scrapeMarkdown (turndown : Str → Str) (provider : Provider)
    (title url retrievedAt : Str) (msgs : List ScrapedMessage) : Str :=
  let head : List Str :=
    [ "# ".data ++ headingProvider provider ++ " Conversation: ".data ++
        stripProviderPrefix title,
      [],
      "Source: ".data ++ url,
      "Retrieved: ".data ++ retrievedAt,
      [] ]
  let body : List Str := msgs.flatMap (fun m =>
    [ "## ".data ++ prettyRole m.role, [], perMessageMarkdown turndown m.html, [] ])
  normalizeLineTerminators (List.intercalate ['\n'] (head ++ body))

/-! ### C9 lemmas: separators, newline runs, trimming -/

theorem normalizeLineTerminators_no_sep (l : Str) :
    '\u2028' ∉ normalizeLineTerminators l ∧ '\u2029' ∉ normalizeLineTerminators l := by
  constructor <;>
  · intro h
    rcases List.mem_map.mp h with ⟨c, _, hc⟩
    by_cases h28 : c = '\u2028' <;> by_cases h29 : c = '\u2029' <;>
      simp [h28, h29] at hc

/-- The triple-newline pattern. -/
def tripleNl : Str := ['\n', '\n', '\n']

theorem dropNl_head {l : Str} : (dropNl l).head? ≠ some '\n' := by
  induction l with
  | nil => simp [dropNl]
  | cons c rest ih =>
    by_cases hc : c = '\n'
    · simpa [dropNl, hc] using ih
    · simp [dropNl, List.dropWhile_cons, hc]

theorem collapseNewlines_head? (l : Str) :
    (collapseNewlines l).head? = l.head? := by
  induction l using collapseNewlines.induct with
  | case1 rest ih => simp [collapseNewlines]
  | case2 c rest hguard ih =>
    rw [collapseNewlines.eq_2 c rest hguard]
    simp
  | case3 => simp [collapseNewlines]

theorem collapseNewlines_no_triple (l : Str) :
    ¬ tripleNl <:+: collapseNewlines l := by
  induction l using collapseNewlines.induct with
  | case1 rest ih =>
    intro hin
    rw [collapseNewlines.eq_1] at hin
    have hT : (collapseNewlines (dropNl rest)).head? ≠ some '\n' := by
      rw [collapseNewlines_head?]
      exact dropNl_head
    rcases List.infix_cons_iff.mp hin with hpre | hin2
    · rcases hpre with ⟨t, ht⟩
      simp only [tripleNl, List.cons_append, List.cons.injEq] at ht
      rcases ht with ⟨_, _, hrest⟩
      have : (collapseNewlines (dropNl rest)).head? = some '\n' := by
        rw [← hrest]; rfl
      exact hT this
    · rcases List.infix_cons_iff.mp hin2 with hpre | hin3
      · rcases hpre with ⟨t, ht⟩
        simp only [tripleNl, List.cons_append, List.cons.injEq] at ht
        rcases ht with ⟨_, hrest⟩
        have : (collapseNewlines (dropNl rest)).head? = some '\n' := by
          rw [← hrest]; rfl
        exact hT this
      · exact ih hin3
  | case2 c rest hguard ih =>
    intro hin
    rw [collapseNewlines.eq_2 c rest hguard] at hin
    rcases List.infix_cons_iff.mp hin with hpre | hin2
    · rcases hpre with ⟨t, ht⟩
      simp only [tripleNl, List.cons_append, List.cons.injEq] at ht
      rcases ht with ⟨hc, hrest⟩
      subst hc
      -- collapseNewlines rest starts with two newlines; derive the shape of rest
      have h1 : (collapseNewlines rest).head? = some '\n' := by
        rw [← hrest]; rfl
      rw [collapseNewlines_head?] at h1
      cases rest with
      | nil => simp at h1
      | cons d r2 =>
        have hd : d = '\n' := by simpa using h1
        subst hd
        -- rest = '\n' :: r2 and the guard forbids r2 = '\n' :: _
        have hr2 : ∀ r3, r2 ≠ '\n' :: r3 := by
          intro r3 hr3
          exact hguard r3 rfl (by rw [hr3])
        -- collapseNewlines ('\n' :: r2) = '\n' :: collapseNewlines r2
        have hg2 : ∀ (rest_1 : List Char), '\n' = '\n' → r2 = '\n' :: '\n' :: rest_1 → False := by
          intro r3 _ hr3
          exact hr2 ('\n' :: r3) hr3
        rw [collapseNewlines.eq_2 '\n' r2 hg2] at hrest
        have h2 : (collapseNewlines r2).head? = some '\n' := by
          have := congrArg List.tail hrest
          simp only [List.tail_cons] at this
          rw [← this]; rfl
        rw [collapseNewlines_head?] at h2
        cases r2 with
        | nil => simp at h2
        | cons e r3 =>
          have he : e = '\n' := by simpa using h2
          exact hr2 r3 (by rw [he])
    · exact ih hin2
  | case3 =>
    intro hin
    have := hin.length_le
    simp [tripleNl, collapseNewlines] at this

theorem jsTrimStart_suffix (l : Str) : jsTrimStart l <:+ l :=
  List.dropWhile_suffix _

theorem jsTrimEnd_prefix_of (l : Str) : jsTrimEnd l <+: l := by
  have h := List.dropWhile_suffix (l := l.reverse) (fun c => isJsWs c)
  have h2 := List.reverse_prefix.mpr h
  simpa [jsTrimEnd] using h2

theorem jsTrim_within (l : Str) : jsTrim l <:+: l :=
  ((jsTrimEnd_prefix_of (jsTrimStart l)).isInfix).trans (jsTrimStart_suffix l).isInfix

theorem jsTrim_no_triple {l : Str} (h : ¬ tripleNl <:+: l) :
    ¬ tripleNl <:+: jsTrim l :=
  fun hin => h (hin.trans (jsTrim_within l))

theorem jsTrimStart_idem (l : Str) : jsTrimStart (jsTrimStart l) = jsTrimStart l :=
  List.dropWhile_idempotent _ _

theorem jsTrimEnd_idem (l : Str) : jsTrimEnd (jsTrimEnd l) = jsTrimEnd l := by
  unfold jsTrimEnd
  simp [List.dropWhile_idempotent]

theorem jsTrimStart_jsTrimEnd_of_trimmed {z : Str} (hz : jsTrimStart z = z) :
    jsTrimStart (jsTrimEnd z) = jsTrimEnd z := by
  rw [jsTrimStart, List.dropWhile_eq_self_iff]
  intro hl
  have hlen : 0 < z.length :=
    lt_of_lt_of_le hl (jsTrimEnd_prefix_of z).length_le
  have hget : (jsTrimEnd z).get ⟨0, hl⟩ = z.get ⟨0, hlen⟩ := by
    have h := List.IsPrefix.getElem (jsTrimEnd_prefix_of z) hl
    simpa [List.get_eq_getElem] using h
  rw [hget]
  have hz' := hz
  rw [jsTrimStart, List.dropWhile_eq_self_iff] at hz'
  have h2 := hz' hlen
  simpa [List.get_eq_getElem] using h2

theorem jsTrim_idem (l : Str) : jsTrim (jsTrim l) = jsTrim l := by
  unfold jsTrim
  rw [jsTrimStart_jsTrimEnd_of_trimmed (jsTrimStart_idem l), jsTrimEnd_idem]

/-- C9: the Markdown document of a successful scrape contains no U+2028 or
U+2029 separator (each having been replaced by a newline by the final
`normalizeLineTerminators` pass), and every converted message is free of
runs of three or more consecutive newlines and equals its own trim
(leading/trailing whitespace removed) before being joined into the
document. -/
theorem scrapeMarkdown_clean (turndown : Str → Str) (provider : Provider)
    (title url retrievedAt : Str) (msgs : List ScrapedMessage) :
    ('\u2028' ∉ scrapeMarkdown turndown provider title url retrievedAt msgs ∧
     '\u2029' ∉ scrapeMarkdown turndown provider title url retrievedAt msgs) ∧
    (∀ html : Str,
      ¬ tripleNl <:+: perMessageMarkdown turndown html ∧
      jsTrim (perMessageMarkdown turndown html) = perMessageMarkdown turndown html) := by
  refine ⟨?_, ?_⟩
  · exact normalizeLineTerminators_no_sep _
  · intro html
    constructor
    · exact jsTrim_no_triple (collapseNewlines_no_triple _)
    · simp only [perMessageMarkdown]
      exact jsTrim_idem _

/-! ### C1/C10: fenced code emission -/

/-- The fold computing `(codeText.match(/`+/g) || []).reduce((a, b) =>
Math.max(a, b.length), 0)`: `cur` is the length of the current backtick run,
`best` the maximum run length seen (kept at least `cur`). -/
def maxTickRunAux : Str → Nat → Nat → Nat
  | [], _, best => best
  | c :: rest, cur, best =>
    if c = '`' then maxTickRunAux rest (cur + 1) (max best (cur + 1))
    else maxTickRunAux rest 0 best

/-- Length of the longest backtick run of `l`. -/
def maxTickRun (l : Str) : Nat := maxTickRunAux l 0 0

/-- The synthesized fence: `'`'.repeat(Math.max(3, maxTicks + 1))`. -/
def fenceFor (t : Str) : Str := List.replicate (max 3 (maxTickRun t + 1)) '`'

theorem maxTickRunAux_spec (l : Str) : ∀ cur best, cur ≤ best →
    best ≤ maxTickRunAux l cur best ∧
    (∀ k, List.replicate k '`' <+: l → cur + k ≤ maxTickRunAux l cur best) ∧
    (∀ k, List.replicate k '`' <:+: l → k ≤ maxTickRunAux l cur best) := by
  induction l with
  | nil =>
    intro cur best hcb
    refine ⟨le_refl _, ?_, ?_⟩
    · intro k hk
      have : List.replicate k '`' = ([] : Str) := List.prefix_nil.mp hk
      have hk0 : k = 0 := by simpa using congrArg List.length this
      simpa [hk0, maxTickRunAux] using hcb
    · intro k hk
      have : List.replicate k '`' = ([] : Str) := List.infix_nil.mp hk
      have hk0 : k = 0 := by simpa using congrArg List.length this
      simp [hk0, maxTickRunAux]
  | cons c rest ih =>
    intro cur best hcb
    by_cases hc : c = '`'
    · subst hc
      have hrec := ih (cur + 1) (max best (cur + 1)) (le_max_right _ _)
      have hres : maxTickRunAux ('`' :: rest) cur best
          = maxTickRunAux rest (cur + 1) (max best (cur + 1)) := by
        simp [maxTickRunAux]
      refine ⟨?_, ?_, ?_⟩
      · rw [hres]; exact le_trans (le_max_left _ _) hrec.1
      · intro k hk
        rw [hres]
        cases k with
        | zero =>
          have h0 := hrec.2.1 0 (List.nil_prefix)
          simpa using Nat.le_of_succ_le (by simpa using h0)
        | succ j =>
          have hj : List.replicate j '`' <+: rest := by
            rw [List.replicate_succ] at hk
            exact (List.cons_prefix_cons.mp hk).2
          have := hrec.2.1 j hj
          omega
      · intro k hk
        rw [hres]
        rcases List.infix_cons_iff.mp hk with hpre | hinf
        · cases k with
          | zero => simp
          | succ j =>
            have hj : List.replicate j '`' <+: rest := by
              rw [List.replicate_succ] at hpre
              exact (List.cons_prefix_cons.mp hpre).2
            have := hrec.2.1 j hj
            omega
        · exact hrec.2.2 k hinf
    · have hrec := ih 0 best (Nat.zero_le _)
      have hres : maxTickRunAux (c :: rest) cur best = maxTickRunAux rest 0 best := by
        simp [maxTickRunAux, hc]
      refine ⟨?_, ?_, ?_⟩
      · rw [hres]; exact hrec.1
      · intro k hk
        rw [hres]
        cases k with
        | zero => exact le_trans hcb hrec.1
        | succ j =>
          exfalso
          rw [List.replicate_succ] at hk
          exact hc ((List.cons_prefix_cons.mp hk).1.symm)
      · intro k hk
        rw [hres]
        rcases List.infix_cons_iff.mp hk with hpre | hinf
        · cases k with
          | zero => simp
          | succ j =>
            exfalso
            rw [List.replicate_succ] at hpre
            exact hc ((List.cons_prefix_cons.mp hpre).1.symm)
        · exact hrec.2.2 k hinf

/-- Every backtick run of `t` is shorter than the synthesized fence. -/
theorem fence_exceeds_runs (t : Str) (k : Nat)
    (h : List.replicate k '`' <:+: t) : k < (fenceFor t).length := by
  have := (maxTickRunAux_spec t 0 0 (le_refl 0)).2.2 k h
  simp only [fenceFor, List.length_replicate]
  have hmax : maxTickRun t + 1 ≤ max 3 (maxTickRun t + 1) := le_max_right _ _
  simp only [maxTickRun] at *
  omega

/-- Characters of the class `[\w-]` (`\w` plus hyphen). -/
def isWordDash (c : Char) : Bool :=
  decide (('a' ≤ c ∧ c ≤ 'z') ∨ ('A' ≤ c ∧ c ≤ 'Z') ∨ ('0' ≤ c ∧ c ≤ '9') ∨
    c = '_' ∨ c = '-')

/-- `className.match(/language-([\w-]+)/)?.[1]`: the first position where the
literal `language-` is followed by at least one `[\w-]` character yields the
maximal such run; otherwise the scan advances one character. -/
def extractLanguage : Str → Option Str
  | [] => none
  | c :: rest =>
    if ("language-".data).isPrefixOf (c :: rest) then
      let run := ((c :: rest).drop 9).takeWhile (fun x => isWordDash x)
      if run ≠ [] then some run else extractLanguage rest
    else extractLanguage rest

/-- The code text of the pre>code rule (source line 1137): NBSP to space,
CR/CRLF to LF, then `trimEnd`. -/
def codeRuleText (raw : Str) : Str := jsTrimEnd (crToLf (nbspToSpace raw))

/-- The `codeRule` replacement (source lines 1130-1142): fence, the language
from a `language-X` class as info string, the code text, closing fence. -/
def codeRuleRepl (className raw : Str) : Str :=
  let lang := (extractLanguage className).getD []
  let codeText := codeRuleText raw
  let fence := fenceFor codeText
  "\n\n".data ++ fence ++ lang ++ '\n' :: codeText ++ '\n' :: fence ++ "\n\n".data

/-- The `preBlocks` replacement (source lines 1145-1153) for a `<pre>` with
no `<code>` child: identical fencing, no info string. -/
def preBlocksRepl (raw : Str) : Str :=
  let text := jsTrimEnd (crToLf (nbspToSpace raw))
  let fence := fenceFor text
  "\n\n".data ++ fence ++ '\n' :: text ++ '\n' :: fence ++ "\n\n".data

/-- The `inlineCodeToBlock` replacement (source lines 1156-1167) for
multiline or long inline code outside `<pre>`: same shape as `preBlocks`. -/
def inlineCodeToBlockRepl (raw : Str) : Str :=
  let text := jsTrimEnd (crToLf (nbspToSpace raw))
  let fence := fenceFor text
  "\n\n".data ++ fence ++ '\n' :: text ++ '\n' :: fence ++ "\n\n".data

/-- `/\s{2,}/.test(l)`: does `l` contain two adjacent whitespace characters? -/
def hasWsRun2 : Str → Bool
  | c :: d :: rest => (isJsWs c && isJsWs d) || hasWsRun2 (d :: rest)
  | _ => false

/-- `replace(/\s{2,}/g, '\n')`: each maximal whitespace run of length at
least two becomes a single newline; shorter runs are copied. -/
def wsCollapse : Str → Str
  | [] => []
  | [c] => [c]
  | c :: d :: rest =>
    if isJsWs c then
      if isJsWs d then
        '\n' :: wsCollapse ((d :: rest).dropWhile (fun x => isJsWs x))
      else c :: wsCollapse (d :: rest)
    else c :: wsCollapse (d :: rest)
termination_by l => l.length
decreasing_by
  all_goals simp only [List.length_cons]
  all_goals first
    | exact Nat.lt_succ_of_le (Nat.lt_succ_of_le
        (List.Sublist.length_le (List.dropWhile_sublist _))).le
    | exact Nat.lt_succ_of_le (List.Sublist.length_le (List.dropWhile_sublist _))
    | omega

/-- The `fencedCodeFallback` filter (source lines 1092-1100): a bare
`<code>` element is block-like when its text has a newline, or is long with
a whitespace run, or its parent is marked as a code block. -/
def fencedCodeFallbackTest (text : Str) (parentTestId : Option Str)
    (parentClassName : Str) : Bool :=
  containsStr ['\n'] text ||
  (decide (120 < text.length) && hasWsRun2 text) ||
  (match parentTestId with
   | some t => containsStr "code-block".data t
   | none => false) ||
  containsStr "code-block".data (lowerStr parentClassName)

/-- The `fencedCodeFallback` replacement (source lines 1102-1110): NBSP to
space and `trimEnd`; when the text has no newline but a 2+ whitespace run,
every such run becomes a newline; then the usual fencing. -/
def fencedCodeFallbackRepl (content : Str) : Str :=
  let codeText0 := jsTrimEnd (nbspToSpace content)
  let codeText :=
    if ¬ containsStr ['\n'] codeText0 ∧ hasWsRun2 codeText0 then wsCollapse codeText0
    else codeText0
  let fence := fenceFor codeText
  "\n\n".data ++ fence ++ '\n' :: codeText ++ '\n' :: fence ++ "\n\n".data

/-- The code text emitted by `fencedCodeFallbackRepl`. -/
def fencedCodeFallbackText (content : Str) : Str :=
  let codeText0 := jsTrimEnd (nbspToSpace content)
  if ¬ containsStr ['\n'] codeText0 ∧ hasWsRun2 codeText0 then wsCollapse codeText0
  else codeText0

/-- The code-block container rewrite of message extraction (source lines
3205-3209): collapse 2+ whitespace runs to newlines, collapse 3+ newline
runs, and wrap as `<pre><code>`. -/
def codeBlockContainerHtml (t : Str) : Str :=
  let codeText0 := jsTrimEnd (nbspToSpace t)
  let codeText := collapseNewlines (wsCollapse codeText0)
  "<pre><code>".data ++ codeText ++ "</code></pre>".data

/-- C1: each code-to-fence rule (pre>code, bare pre, block-like code, inline
code promoted to a block) emits `max(3, n+1)` backticks as its fence, where
`n` is the longest backtick run of the emitted code text, so the fence is
strictly longer than every backtick run of the content; the pre>code rule
also emits the `language-X` class capture as the fence's info string. -/
theorem codeFence_safety (className raw content : Str) :
    ((fenceFor (codeRuleText raw)).length = max 3 (maxTickRun (codeRuleText raw) + 1) ∧
      codeRuleRepl className raw =
        "\n\n".data ++ fenceFor (codeRuleText raw) ++ (extractLanguage className).getD []
          ++ '\n' :: codeRuleText raw ++ '\n' :: fenceFor (codeRuleText raw)
          ++ "\n\n".data) ∧
    (∀ X, extractLanguage className = some X → (extractLanguage className).getD [] = X) ∧
    (∀ k, List.replicate k '`' <:+: codeRuleText raw →
      k < (fenceFor (codeRuleText raw)).length) ∧
    (preBlocksRepl raw =
      "\n\n".data ++ fenceFor (codeRuleText raw) ++ '\n' :: codeRuleText raw
        ++ '\n' :: fenceFor (codeRuleText raw) ++ "\n\n".data ∧
      inlineCodeToBlockRepl raw = preBlocksRepl raw) ∧
    (fencedCodeFallbackRepl content =
      "\n\n".data ++ fenceFor (fencedCodeFallbackText content)
        ++ '\n' :: fencedCodeFallbackText content
        ++ '\n' :: fenceFor (fencedCodeFallbackText content) ++ "\n\n".data ∧
      (fenceFor (fencedCodeFallbackText content)).length =
        max 3 (maxTickRun (fencedCodeFallbackText content) + 1)) ∧
    (∀ k, List.replicate k '`' <:+: fencedCodeFallbackText content →
      k < (fenceFor (fencedCodeFallbackText content)).length) := by
  refine ⟨⟨by simp [fenceFor], rfl⟩, ?_, ?_, ⟨rfl, rfl⟩, ⟨rfl, by simp [fenceFor]⟩, ?_⟩
  · intro X hX
    simp [hX]
  · intro k hk
    exact fence_exceeds_runs _ k hk
  · intro k hk
    exact fence_exceeds_runs _ k hk

/-- Witness for C1: the code text `print(a```b)` has a 3-backtick run and
receives a 4-backtick fence (`max(3, 3+1)`), which strictly exceeds it. -/
theorem codeFence_safety_witness :
    (List.replicate 3 '`' <:+: codeRuleText "print(a```b)".data) ∧
    3 < (fenceFor (codeRuleText "print(a```b)".data)).length :=
  ⟨by decide,
    (codeFence_safety "language-python".data "print(a```b)".data []).2.2.1 3 (by decide)⟩

theorem dropWhile_all_append {r b : Str} (hr : ∀ c ∈ r, isJsWs c = true)
    (hb : ∀ c, b.head? = some c → isJsWs c = false) :
    (r ++ b).dropWhile (fun x => isJsWs x) = b := by
  induction r with
  | nil =>
    simp only [List.nil_append]
    cases b with
    | nil => rfl
    | cons c r2 =>
      have h := hb c rfl
      simp [List.dropWhile_cons, h]
  | cons c r' ih =>
    have hc := hr c (by simp)
    simp only [List.cons_append, List.dropWhile_cons, hc]
    exact ih (fun d hd => hr d (by simp [hd]))

theorem getLast?_of_suffix {u v : Str} (h : u <:+ v) (hu : u ≠ []) :
    v.getLast? = u.getLast? := by
  rcases h with ⟨t, rfl⟩
  exact List.getLast?_append_of_ne_nil t hu

theorem dropWhile_ne_nil_of_getLast {u : Str} (c : Char)
    (hlast : u.getLast? = some c) (hc : isJsWs c = false) :
    u.dropWhile (fun x => isJsWs x) ≠ [] := by
  intro hnil
  have hmem : c ∈ u := List.mem_of_mem_getLast? hlast
  have hu : u = u.takeWhile (fun x => isJsWs x) := by
    conv_lhs => rw [← List.takeWhile_append_dropWhile (fun x => isJsWs x) u]
    rw [hnil, List.append_nil]
  rw [hu] at hmem
  have h := List.mem_takeWhile_imp hmem
  rw [h] at hc
  exact Bool.noConfusion hc

theorem wsCollapse_run (r b : Str) (hr2 : 2 ≤ r.length)
    (hrws : ∀ c ∈ r, isJsWs c = true)
    (hb : ∀ c, b.head? = some c → isJsWs c = false) :
    wsCollapse (r ++ b) = '\n' :: wsCollapse b := by
  match r, hr2 with
  | c :: d :: r', _ =>
    have hc : isJsWs c = true := hrws c (by simp)
    have hd : isJsWs d = true := hrws d (by simp)
    have hdrop : ((d :: r') ++ b).dropWhile (fun x => isJsWs x) = b :=
      dropWhile_all_append (fun e he => hrws e (by simp [List.mem_cons] at he ⊢; tauto)) hb
    show wsCollapse (c :: d :: (r' ++ b)) = _
    simp only [wsCollapse, hc, hd, if_true, List.cons_append]
    rw [show d :: (r' ++ b) = (d :: r') ++ b from rfl, hdrop]

theorem wsCollapse_split_aux (n : Nat) : ∀ (a r b : Str), a.length ≤ n →
    2 ≤ r.length → (∀ c ∈ r, isJsWs c = true) →
    (∀ c, a.getLast? = some c → isJsWs c = false) →
    (∀ c, b.head? = some c → isJsWs c = false) →
    wsCollapse (a ++ r ++ b) = wsCollapse a ++ '\n' :: wsCollapse b := by
  induction n with
  | zero =>
    intro a r b hlen hr2 hrws _ hb
    have hnil : a = [] := List.eq_nil_of_length_eq_zero (Nat.le_zero.mp hlen)
    subst hnil
    simpa [wsCollapse] using wsCollapse_run r b hr2 hrws hb
  | succ n ih =>
    intro a r b hlen hr2 hrws ha hb
    match a with
    | [] => simpa [wsCollapse] using wsCollapse_run r b hr2 hrws hb
    | [x] =>
      have hx : isJsWs x = false := ha x rfl
      have hrun := wsCollapse_run r b hr2 hrws hb
      match r, hr2, hrws, hrun with
      | c :: r₁, _, _, hrun =>
        show wsCollapse (x :: ((c :: r₁) ++ b)) = wsCollapse [x] ++ '\n' :: wsCollapse b
        simp only [List.cons_append] at hrun ⊢
        simp only [wsCollapse, hx, if_false, Bool.false_eq_true]
        rw [hrun]
        rfl
    | x :: y :: a' =>
      have hlast : (x :: y :: a').getLast? = (y :: a').getLast? := List.getLast?_cons_cons
      have ha' : ∀ c, (y :: a').getLast? = some c → isJsWs c = false := by
        intro c hc
        exact ha c (hlast.trans hc)
      have hlen' : (y :: a').length ≤ n := by
        simp only [List.length_cons] at hlen ⊢
        omega
      by_cases hx : isJsWs x
      · by_cases hy : isJsWs y
        · -- two leading whitespace characters: a run inside `a`
          obtain ⟨c0, hc0⟩ : ∃ c0, (y :: a').getLast? = some c0 := by
            cases hger : (y :: a').getLast? with
            | none =>
              exfalso
              have h := List.getLast?_eq_none_iff.mp hger
              simp at h
            | some c0 => exact ⟨c0, rfl⟩
          have hc0ws : isJsWs c0 = false := ha' c0 hc0
          have hne : (y :: a').dropWhile (fun e => isJsWs e) ≠ [] :=
            dropWhile_ne_nil_of_getLast c0 hc0 hc0ws
          have hdesugar : ((y :: a') ++ (r ++ b)).dropWhile (fun e => isJsWs e) =
              ((y :: a').dropWhile (fun e => isJsWs e)) ++ (r ++ b) := by
            rw [List.dropWhile_append]
            simp only [List.isEmpty_iff]
            rw [if_neg hne]
          set u := (y :: a').dropWhile (fun e => isJsWs e) with hu
          have husuf : u <:+ (y :: a') := List.dropWhile_suffix _
          have hulen : u.length ≤ n := le_trans husuf.length_le hlen'
          have hulast : ∀ c, u.getLast? = some c → isJsWs c = false := by
            intro c hc
            apply ha' c
            rw [getLast?_of_suffix husuf hne, hc]
          have hrec := ih u r b hulen hr2 hrws hulast hb
          rw [List.append_assoc] at hrec
          simp only [List.cons_append, List.append_assoc]
          simp only [wsCollapse, hx, hy, if_true]
          rw [show y :: (a' ++ (r ++ b)) = (y :: a') ++ (r ++ b) from rfl, hdesugar, ← hu,
            hrec]
          simp
        · -- single whitespace then a non-whitespace character
          have hrec := ih (y :: a') r b hlen' hr2 hrws ha' hb
          rw [List.append_assoc] at hrec
          simp only [List.cons_append, List.append_assoc]
          simp only [wsCollapse, hx, hy, if_true, if_false, Bool.false_eq_true]
          rw [show y :: (a' ++ (r ++ b)) = (y :: a') ++ (r ++ b) from rfl, hrec]
          simp
      · have hrec := ih (y :: a') r b hlen' hr2 hrws ha' hb
        rw [List.append_assoc] at hrec
        simp only [List.cons_append, List.append_assoc]
        simp only [wsCollapse, hx, if_false, Bool.false_eq_true]
        rw [show y :: (a' ++ (r ++ b)) = (y :: a') ++ (r ++ b) from rfl, hrec]
        simp

/-- Every maximal whitespace run of length at least 2 becomes one newline:
the split form of `replace(/\s{2,}/g, '\n')` over a decomposition with a
non-whitespace character (or nothing) on each side of the run. -/
theorem wsCollapse_split (a r b : Str)
    (hr2 : 2 ≤ r.length) (hrws : ∀ c ∈ r, isJsWs c = true)
    (ha : ∀ c, a.getLast? = some c → isJsWs c = false)
    (hb : ∀ c, b.head? = some c → isJsWs c = false) :
    wsCollapse (a ++ r ++ b) = wsCollapse a ++ '\n' :: wsCollapse b :=
  wsCollapse_split_aux a.length a r b (le_refl _) hr2 hrws ha hb

/-- C10: for a bare `<code>` element classified block-like whose emitted
text contains no newline but does contain a 2+ whitespace run, the emitted
fence content is the whitespace-collapsed text, in which every maximal run
of two or more whitespace characters becomes exactly one newline (the split
equation); the same `\s{2,}` rewrite, followed by newline-run collapsing,
is applied to code-block containers during message extraction — so the
fenced content is not in general the element's raw text. -/
theorem fencedCodeFallback_wsRewrite
    (content t text : Str) (parentTestId : Option Str) (parentClassName : Str)
    (a r b : Str)
    (_hfilter : fencedCodeFallbackTest text parentTestId parentClassName = true)
    (hnl : containsStr ['\n'] (jsTrimEnd (nbspToSpace content)) = false)
    (hws : hasWsRun2 (jsTrimEnd (nbspToSpace content)) = true)
    (hr2 : 2 ≤ r.length) (hrws : ∀ c ∈ r, isJsWs c = true)
    (ha : ∀ c, a.getLast? = some c → isJsWs c = false)
    (hb : ∀ c, b.head? = some c → isJsWs c = false) :
    fencedCodeFallbackText content = wsCollapse (jsTrimEnd (nbspToSpace content)) ∧
    wsCollapse (a ++ r ++ b) = wsCollapse a ++ '\n' :: wsCollapse b ∧
    codeBlockContainerHtml t =
      "<pre><code>".data ++ collapseNewlines (wsCollapse (jsTrimEnd (nbspToSpace t)))
        ++ "</code></pre>".data := by
  refine ⟨?_, wsCollapse_split a r b hr2 hrws ha hb, rfl⟩
  unfold fencedCodeFallbackText
  rw [if_pos ⟨by simp [hnl], hws⟩]

/-- Witness for C10 at `content = "foo  bar"` with the run decomposition
`"foo" ++ "  " ++ "bar"`, inside a `code-block`-classed parent. -/
theorem fencedCodeFallback_wsRewrite_witness :
    (fencedCodeFallbackTest "foo  bar".data none "Code-Block grid".data = true ∧
      containsStr ['\n'] (jsTrimEnd (nbspToSpace "foo  bar".data)) = false ∧
      hasWsRun2 (jsTrimEnd (nbspToSpace "foo  bar".data)) = true) ∧
    (fencedCodeFallbackText "foo  bar".data =
        wsCollapse (jsTrimEnd (nbspToSpace "foo  bar".data)) ∧
      wsCollapse ("foo".data ++ "  ".data ++ "bar".data) =
        wsCollapse "foo".data ++ '\n' :: wsCollapse "bar".data ∧
      codeBlockContainerHtml "x  y".data =
        "<pre><code>".data ++
          collapseNewlines (wsCollapse (jsTrimEnd (nbspToSpace "x  y".data)))
          ++ "</code></pre>".data) :=
  ⟨⟨by decide, by decide, by decide⟩,
    fencedCodeFallback_wsRewrite "foo  bar".data "x  y".data "foo  bar".data
      none "Code-Block grid".data "foo".data "  ".data "bar".data
      (by decide) (by decide) (by decide) (by decide) (by decide) (by decide)
      (by decide)⟩

/-! ### C4: the challenge detectors -/

/-- A sequence match `p1.*p2` of a JS regex without the `s` flag: `p1` at
some position, then `p2` later with no line terminator in between (`.` does
not match line terminators).  The input is already lower-cased. -/
def dotSeq (p1 p2 : Str) : Str → Bool
  | [] => decide (p1 = []) && containsStr p2 []
  | c :: rest =>
    (p1.isPrefixOf (c :: rest) &&
      containsStr p2 (((c :: rest).drop p1.length).takeWhile (fun d => ! isLineTerm d))) ||
    dotSeq p1 p2 rest

/-- `isChallengeBody` of the Playwright path (source lines 2949-2953): only
bodies of at most 2000 characters are tested against the challenge
signatures. -/
def isChallengeBody (bodyText : Str) : Bool :=
  if 2000 < bodyText.length then false
  else
    let low := lowerStr bodyText
    containsStr "verify you are human".data low ||
    dotSeq "enable javascript".data "cookies".data low ||
    containsStr "checking your browser".data low ||
    containsStr "ray id:".data low

/-- `isChallengeTitle` of the Playwright path (source lines 2946-2948). -/
def isChallengeTitle (title : Str) : Bool :=
  (let low := lowerStr title
   ("just a moment".data).isPrefixOf low || ("checking".data).isPrefixOf low ||
   ("verify".data).isPrefixOf low || ("attention required".data).isPrefixOf low ||
   ("one moment".data).isPrefixOf low || ("please wait".data).isPrefixOf low) ||
  containsStr "cloudflare".data (lowerStr title)

/-- `checkForChallengePuppeteer` of the CDP path (source lines 2631-2636):
the whole body text is tested, with no length guard. -/
def cdpChallengeCheck (content title : Str) : Bool :=
  (let lowc := lowerStr content
   containsStr "verify you are human".data lowc ||
   containsStr "just a moment".data lowc ||
   containsStr "checking your browser".data lowc ||
   containsStr "ray id:".data lowc) ||
  (let lowt := lowerStr title
   containsStr "just a moment".data lowt ||
   containsStr "cloudflare".data lowt)

/-- Reflection of the substring scanner to the infix relation. -/
theorem containsStr_iff (pat l : Str) : containsStr pat l = true ↔ pat <:+: l := by
  induction l with
  | nil =>
    simp only [containsStr, List.isPrefixOf_iff_prefix]
    constructor
    · intro h
      exact h.isInfix
    · intro h
      exact (List.infix_nil.mp h) ▸ List.prefix_refl _
  | cons c rest ih =>
    simp only [containsStr, Bool.or_eq_true, List.isPrefixOf_iff_prefix, ih]
    exact (List.infix_cons_iff).symm

theorem lowerStr_replicate_a (n : Nat) :
    lowerStr (List.replicate n 'a') = List.replicate n 'a' := by
  simp only [lowerStr, List.map_replicate]
  rfl

/-- Non-occurrence of a pattern in `A ++ 'a'*n`, by case analysis on where
an occurrence would sit. -/
theorem not_contains_append_replicate (pat A : Str) (n : Nat)
    (hA : ¬ pat <:+: A)
    (hallA : ¬ ∀ c ∈ pat, c = 'a')
    (hspan : ∀ k ∈ List.range pat.length, 0 < k →
      ¬ (pat.take k <:+ A ∧ ∀ c ∈ pat.drop k, c = 'a')) :
    containsStr pat (A ++ List.replicate n 'a') = false := by
  rw [← Bool.not_eq_true, containsStr_iff]
  intro hin
  rcases infix_append_cases hin with h1 | h2 | ⟨m₁, m₂, hm, hne1, hne2, hs, hp⟩
  · exact hA h1
  · apply hallA
    intro c hc
    exact List.eq_of_mem_replicate (h2.sublist.subset hc)
  · have hk1 : 0 < m₁.length := List.length_pos.mpr hne1
    have hk2 : m₁.length < pat.length := by
      have hl := congrArg List.length hm
      simp only [List.length_append] at hl
      have h2 := List.length_pos.mpr hne2
      omega
    apply hspan m₁.length (List.mem_range.mpr hk2) hk1
    constructor
    · have htk : pat.take m₁.length = m₁ := by
        rw [hm, List.take_left]
      rw [htk]
      exact hs
    · intro c hc
      have hdr : pat.drop m₁.length = m₂ := by
        rw [hm, List.drop_left]
      rw [hdr] at hc
      exact List.eq_of_mem_replicate (hp.sublist.subset hc)

/-- A 3000-character page body that contains a full challenge signature. -/
def c4ChallengeBody : Str := "verify you are human".data ++ List.replicate 2980 'a'

/-- A 3000-character conversation body that merely mentions "verify". -/
def c4ConvBody : Str := "please verify the results ".data ++ List.replicate 2974 'a'

theorem c4ChallengeBody_long : 2000 < c4ChallengeBody.length := by
  have h20 : ("verify you are human".data).length = 20 := by decide
  simp [c4ChallengeBody, List.length_append, List.length_replicate, h20]

theorem c4ConvBody_long : 2000 < c4ConvBody.length := by
  have h26 : ("please verify the results ".data).length = 26 := by decide
  simp [c4ConvBody, List.length_append, List.length_replicate, h26]

theorem cdp_flags_long_body : cdpChallengeCheck c4ChallengeBody [] = true := by
  have hlow : lowerStr c4ChallengeBody =
      "verify you are human".data ++ List.replicate 2980 'a' := by
    rw [c4ChallengeBody, lowerStr_append, lowerStr_replicate_a]
    congr 1
  have h1 : containsStr "verify you are human".data (lowerStr c4ChallengeBody) = true := by
    rw [containsStr_iff, hlow]
    exact (List.prefix_append _ _).isInfix
  simp [cdpChallengeCheck, h1]

theorem conv_body_not_flagged : cdpChallengeCheck c4ConvBody [] = false := by
  have hlow : lowerStr c4ConvBody =
      "please verify the results ".data ++ List.replicate 2974 'a' := by
    rw [c4ConvBody, lowerStr_append, lowerStr_replicate_a]
    congr 1
  have h1 : containsStr "verify you are human".data (lowerStr c4ConvBody) = false := by
    rw [hlow]
    exact not_contains_append_replicate _ _ _ (by decide) (by decide) (by decide)
  have h2 : containsStr "just a moment".data (lowerStr c4ConvBody) = false := by
    rw [hlow]
    exact not_contains_append_replicate _ _ _ (by decide) (by decide) (by decide)
  have h3 : containsStr "checking your browser".data (lowerStr c4ConvBody) = false := by
    rw [hlow]
    exact not_contains_append_replicate _ _ _ (by decide) (by decide) (by decide)
  have h4 : containsStr "ray id:".data (lowerStr c4ConvBody) = false := by
    rw [hlow]
    exact not_contains_append_replicate _ _ _ (by decide) (by decide) (by decide)
  have ht1 : containsStr "just a moment".data (lowerStr ([] : Str)) = false := by decide
  have ht2 : containsStr "cloudflare".data (lowerStr ([] : Str)) = false := by decide
  simp [cdpChallengeCheck, h1, h2, h3, h4, ht1, ht2]

/-- C4 counterexample: the claim quantifies over both backends, but the
attached (CDP/puppeteer) challenge check has no body-length guard: a
3000-character body containing `verify you are human` is classified as a
challenge there, while the scripted (Playwright) body heuristic correctly
ignores it. -/
theorem c4_counterexample :
    2000 < c4ChallengeBody.length ∧
    cdpChallengeCheck c4ChallengeBody [] = true ∧
    isChallengeBody c4ChallengeBody = false := by
  refine ⟨c4ChallengeBody_long, cdp_flags_long_body, ?_⟩
  unfold isChallengeBody
  rw [if_pos c4ChallengeBody_long]

/-- C4 amended: the body-length guard holds in the scripted (Playwright)
backend — every body longer than 2000 characters is classified as not a
challenge regardless of content; the CDP backend has no such guard, but a
3000-character conversation body that merely mentions "verify" (without a
full challenge phrase) is still not flagged by either backend. -/
theorem c4_amended (body : Str) (h : 2000 < body.length) :
    isChallengeBody body = false ∧
    (2000 < c4ConvBody.length ∧ isChallengeBody c4ConvBody = false ∧
      cdpChallengeCheck c4ConvBody [] = false) := by
  refine ⟨?_, c4ConvBody_long, ?_, conv_body_not_flagged⟩
  · unfold isChallengeBody
    rw [if_pos h]
  · unfold isChallengeBody
    rw [if_pos c4ConvBody_long]

/-- Witness for C4's amended theorem at a concrete 2001-character body. -/
theorem c4_amended_witness :
    2000 < (List.replicate 2001 'x').length ∧
    (isChallengeBody (List.replicate 2001 'x') = false ∧
      (2000 < c4ConvBody.length ∧ isChallengeBody c4ConvBody = false ∧
        cdpChallengeCheck c4ConvBody [] = false)) :=
  ⟨by simp, c4_amended (List.replicate 2001 'x') (by simp)⟩

/-! ### C6: automation-session lifecycle

The browser/side effects of `scrape` are embedded as explicit state
passing: a handle is a Boolean that `connect`/`launch` sets and
`close`/`disconnect` clears, each at the same point in the control flow as
the corresponding call in the source.  A thrown `AppError` returns the
state unchanged exactly where the source has no `finally` covering the
handle. -/

/-- Branch outcomes of one CDP-path run. -/
structure CdpEnv where
  challengeInitially : Bool
  challengeAfterUser : Bool
  selectorFound : Bool
deriving DecidableEq, Repr

/-- State of the attached CDP (puppeteer) connection. -/
structure CdpState where
  connected : Bool
deriving DecidableEq, Repr

/-- Result of one CDP-path run. -/
structure CdpRunResult where
  ok : Bool
  err : Str
  finalState : CdpState
deriving DecidableEq, Repr

/-- The CDP branch of `scrape`: `puppeteer.connect` opens the session
(source line 2415); the challenge-still-present throw (2654) and the
no-selector throw (2678) leave the connection state untouched, because the
`finally` block (3320-3326) closes only the Playwright browser/context;
the success path calls `puppeteerBrowser.disconnect()` (2756) before
returning. -/
def cdpScrapeRun (env : CdpEnv) : CdpRunResult :=
  let s : CdpState := ⟨true⟩
  if env.challengeInitially && env.challengeAfterUser then
    ⟨false, "Cloudflare challenge still present.".data, s⟩
  else if !env.selectorFound then
    ⟨false, "Could not find conversation content".data, s⟩
  else
    ⟨true, [], ⟨false⟩⟩

/-- Branch outcomes of one Playwright-path run. -/
structure PwFlow where
  headlessBlocked : Bool
  headfulBlocked : Bool
  selectorFound : Bool
deriving DecidableEq, Repr

/-- State of the scripted Playwright session: a Browser handle and a
persistent BrowserContext handle. -/
structure PwState where
  browser : Bool
  context : Bool
deriving DecidableEq, Repr

/-- The body of the Playwright branch (inside the `try`): launch (2892),
and on a headless block close the current session (2978-2979) before
relaunching headful (2983); throws leave the state to the `finally`. -/
def pwBodyRun (useProfile : Bool) (env : PwFlow) : Bool × PwState :=
  let s : PwState := if useProfile then ⟨false, true⟩ else ⟨true, false⟩
  if !env.headlessBlocked then
    if env.selectorFound then (true, s) else (false, s)
  else
    let s1 : PwState := ⟨false, false⟩
    let s2 : PwState := if useProfile then ⟨s1.browser, true⟩ else ⟨true, s1.context⟩
    if !env.headfulBlocked then
      if env.selectorFound then (true, s2) else (false, s2)
    else
      (false, s2)

/-- The whole Playwright branch: the `finally` block (3320-3326) closes the
browser and the context on every exit path. -/
def pwScrapeRun (useProfile : Bool) (env : PwFlow) : Bool × PwState :=
  let r := pwBodyRun useProfile env
  (r.1, ⟨false, false⟩)

/-- C6: the Playwright `finally` does close its session on every exit path,
and the CDP success path disconnects before returning — but on the CDP
error paths (challenge still present, or no selector found) `scrape`
throws with the attached debug-protocol connection still open: the
hard invariant of the claim is violated there. -/
theorem c6_session_lifecycle (useProfile : Bool) (envPw : PwFlow) (env : CdpEnv)
    (hsel : env.selectorFound = true)
    (hch : env.challengeInitially = false ∨ env.challengeAfterUser = false) :
    (pwScrapeRun useProfile envPw).2 = ⟨false, false⟩ ∧
    ((cdpScrapeRun env).ok = true ∧ (cdpScrapeRun env).finalState.connected = false) ∧
    ((cdpScrapeRun ⟨false, false, false⟩).ok = false ∧
      (cdpScrapeRun ⟨false, false, false⟩).finalState.connected = true) := by
  refine ⟨rfl, ?_, by decide⟩
  unfold cdpScrapeRun
  rcases hch with h | h <;> simp [hsel, h]

/-- Witness for C6 at concrete environments. -/
theorem c6_session_lifecycle_witness :
    ((⟨false, false, true⟩ : CdpEnv).selectorFound = true ∧
      ((⟨false, false, true⟩ : CdpEnv).challengeInitially = false ∨
        (⟨false, false, true⟩ : CdpEnv).challengeAfterUser = false)) ∧
    ((pwScrapeRun false ⟨false, false, true⟩).2 = ⟨false, false⟩ ∧
      ((cdpScrapeRun ⟨false, false, true⟩).ok = true ∧
        (cdpScrapeRun ⟨false, false, true⟩).finalState.connected = false) ∧
      ((cdpScrapeRun ⟨false, false, false⟩).ok = false ∧
        (cdpScrapeRun ⟨false, false, false⟩).finalState.connected = true)) :=
  ⟨⟨rfl, Or.inl rfl⟩,
    c6_session_lifecycle false ⟨false, false, true⟩ ⟨false, false, true⟩ rfl (Or.inl rfl)⟩

/-! ### C5: script-freedom of `escapeExecutableTags` and the rendered document -/

theorem no_lt_lowerStr {l : Str} (h : '<' ∉ l) : '<' ∉ lowerStr l :=
  fun hin => h (lt_mem_of_lowerStr hin)

/-- An occurrence of a `'<'`-headed pattern cannot start inside a
`'<'`-free left part. -/
theorem lt_pattern_infix_right {p A B : Str} (hA : '<' ∉ A)
    (h : ('<' :: p) <:+: A ++ B) : ('<' :: p) <:+: B := by
  induction A with
  | nil => simpa using h
  | cons a A' ih =>
    rw [List.cons_append, List.infix_cons_iff] at h
    rcases h with hpre | hin
    · exfalso
      rcases hpre with ⟨t, ht⟩
      have : a = '<' := by
        simp only [List.cons_append, List.cons.injEq] at ht
        exact ht.1.symm
      exact hA (by simp [this])
    · exact ih (fun hm => hA (by simp [hm])) hin

/-- Prefix pull-back: if the output of a `replaceCI` pass (with an
`&`-headed replacement) starts case-insensitively with an `&`-free word,
then so did the input. -/
theorem replaceCI_pullback (pat' : Str) {repl : Str} (s : Str) {t0 : Str}
    (hrepl : repl = '&' :: t0) :
    ∀ q : Str, '&' ∉ q → q <+: lowerStr (replaceCI '<' pat' repl s) →
      q <+: lowerStr s := by
  induction s using replaceCI.induct '<' pat' repl with
  | case1 =>
    intro q _ h
    simp only [replaceCI] at h
    exact h
  | case2 c rest hm ih =>
    intro q hq h
    rw [replaceCI, if_pos hm, lowerStr_append, hrepl] at h
    cases q with
    | nil => exact List.nil_prefix
    | cons q0 q' =>
      exfalso
      rcases h with ⟨t, ht⟩
      have : q0 = '&' := by
        simp only [lowerStr_cons, List.cons_append, List.cons.injEq] at ht
        exact ht.1.symm ▸ rfl
      exact hq (by simp [this])
  | case3 c rest hm ih =>
    intro q hq h
    rw [replaceCI, if_neg hm] at h
    cases q with
    | nil => exact List.nil_prefix
    | cons q0 q' =>
      rw [lowerStr_cons] at h ⊢
      rcases h with ⟨t, ht⟩
      simp only [List.cons_append, List.cons.injEq] at ht
      have hq' : q' <+: lowerStr (replaceCI '<' pat' repl rest) := ⟨t, ht.2⟩
      have h2 := ih q' (fun hm2 => hq (by simp [hm2])) hq'
      rcases h2 with ⟨u, hu⟩
      exact ⟨u, by simp [List.cons_append, ht.1, hu]⟩

theorem noScript_mono {u s : Str} (h : u <:+: s) (hs : noScript s) : noScript u := by
  intro hin
  apply hs
  rcases h with ⟨a, b, rfl⟩
  apply hin.trans
  exact ⟨lowerStr a, lowerStr b, by simp [lowerStr_append]⟩

theorem prefix_eq_take {q l : Str} (h : q <+: l) : l.take q.length = q := by
  rcases h with ⟨t, rfl⟩
  simp [List.take_left]

/-- The first `escapeExecutableTags` pass leaves no `<script` occurrence:
every case-insensitive occurrence in the input is consumed and replaced by
an `&`-headed, `<`-free replacement, and no new occurrence can appear. -/
theorem replaceCI_script_noOcc (repl t0 : Str) (hrepl : repl = '&' :: t0)
    (hlt : '<' ∉ repl) (s : Str) :
    noScript (replaceCI '<' "script".data repl s) := by
  induction s using replaceCI.induct '<' "script".data repl with
  | case1 =>
    intro h
    simp only [replaceCI] at h
    simp [lowerStr, scriptPat] at h
  | case2 c rest hm ih =>
    intro h
    rw [replaceCI, if_pos hm, lowerStr_append] at h
    exact ih (lt_pattern_infix_right (no_lt_lowerStr hlt) h)
  | case3 c rest hm ih =>
    intro h
    rw [replaceCI, if_neg hm, lowerStr_cons] at h
    rcases List.infix_cons_iff.mp h with hpre | hin
    · rcases hpre with ⟨t, ht⟩
      simp only [scriptPat, List.cons_append, List.cons.injEq] at ht
      have hc : asciiLower c = '<' := ht.1.symm
      have hq : ("script".data) <+: lowerStr (replaceCI '<' "script".data repl rest) :=
        ⟨t, by simpa using ht.2⟩
      have hq2 := replaceCI_pullback "script".data rest hrepl "script".data
        (by decide) hq
      apply hm
      refine ⟨hc, ?_⟩
      have hp := prefix_eq_take hq2
      simpa [lowerStr, List.map_take] using hp
    · exact ih hin

/-- The later `escapeExecutableTags` passes preserve the absence of
`<script` occurrences. -/
theorem replaceCI_preserves_noScript (pat' repl t0 : Str) (hrepl : repl = '&' :: t0)
    (hlt : '<' ∉ repl) (s : Str) (hs : noScript s) :
    noScript (replaceCI '<' pat' repl s) := by
  induction s using replaceCI.induct '<' pat' repl with
  | case1 =>
    intro h
    simp only [replaceCI] at h
    simp [lowerStr, scriptPat] at h
  | case2 c rest hm ih =>
    intro h
    rw [replaceCI, if_pos hm, lowerStr_append] at h
    have hdropsfx : rest.drop pat'.length <:+ c :: rest :=
      (List.drop_suffix _ rest).trans (List.suffix_cons c rest)
    exact ih (noScript_mono hdropsfx.isInfix hs)
      (lt_pattern_infix_right (no_lt_lowerStr hlt) h)
  | case3 c rest hm ih =>
    intro h
    rw [replaceCI, if_neg hm, lowerStr_cons] at h
    rcases List.infix_cons_iff.mp h with hpre | hin
    · rcases hpre with ⟨t, ht⟩
      simp only [scriptPat, List.cons_append, List.cons.injEq] at ht
      have hc : asciiLower c = '<' := ht.1.symm
      have hq : ("script".data) <+: lowerStr (replaceCI '<' pat' repl rest) :=
        ⟨t, by simpa using ht.2⟩
      have hq2 := replaceCI_pullback pat' rest hrepl "script".data (by decide) hq
      apply hs
      refine ⟨[], ?_⟩
      rcases hq2 with ⟨u, hu⟩
      exact ⟨u, by simp [lowerStr_cons, hc, scriptPat, hu]⟩
    · exact ih (noScript_mono ((List.suffix_cons c rest).isInfix) hs) hin

/-- No case-insensitive `<script` occurrence survives `escapeExecutableTags`. -/
theorem escapeExecutableTags_noScript (s : Str) : noScript (escapeExecutableTags s) := by
  unfold escapeExecutableTags
  apply replaceCI_preserves_noScript _ _ _ rfl (by decide)
  apply replaceCI_preserves_noScript _ _ _ rfl (by decide)
  apply replaceCI_preserves_noScript _ _ _ rfl (by decide)
  exact replaceCI_script_noOcc _ _ rfl (by decide) s

/-! ### `escapeHtml` (source lines 603-611) -/

/-- Single-character global replacement (`replace(/c/g, repl)`). -/
def replaceAllChar (tgt : Char) (repl : Str) (l : Str) : Str :=
  l.flatMap (fun d => if d = tgt then repl else [d])

/-- `replace(/\r?\n/g, '<br>')`: CRLF or LF becomes a `<br>` tag. -/
def brNewlines : Str → Str
  | '\r' :: '\n' :: rest => "<br>".data ++ brNewlines rest
  | '\n' :: rest => "<br>".data ++ brNewlines rest
  | c :: rest => c :: brNewlines rest
  | [] => []

/-- `escapeHtml`: the six character escapes applied in source order, then
newlines become `<br>` tags. -/
def escapeHtml (value : Str) : Str :=
  brNewlines (replaceAllChar '/' "&#47;".data
    (replaceAllChar '\x27' "&#39;".data
      (replaceAllChar '"' "&quot;".data
        (replaceAllChar '>' "&gt;".data
          (replaceAllChar '<' "&lt;".data
            (replaceAllChar '&' "&amp;".data value))))))

theorem no_lt_replaceAllChar_lt (repl l : Str) (h : '<' ∉ repl) :
    '<' ∉ replaceAllChar '<' repl l := by
  intro hin
  rcases List.mem_flatMap.mp hin with ⟨d, _, hd⟩
  by_cases hdt : d = '<'
  · rw [if_pos hdt] at hd
    exact h hd
  · rw [if_neg hdt] at hd
    simp only [List.mem_singleton] at hd
    exact hdt hd.symm

theorem no_lt_replaceAllChar (tgt : Char) (repl l : Str) (hr : '<' ∉ repl)
    (hl : '<' ∉ l) : '<' ∉ replaceAllChar tgt repl l := by
  intro hin
  rcases List.mem_flatMap.mp hin with ⟨d, hdl, hd⟩
  by_cases hdt : d = tgt
  · rw [if_pos hdt] at hd
    exact hr hd
  · rw [if_neg hdt] at hd
    simp only [List.mem_singleton] at hd
    exact hl (hd ▸ hdl)

theorem good_nil : goodStr ([] : Str) := by decide

theorem good_single {c : Char} (h : c ≠ '<') : goodStr [c] := by
  constructor
  · intro hin
    have := hin.length_le
    simp [scriptPat, lowerStr] at this
  · intro k hk hs
    have hk1 : 1 ≤ k ∧ k ≤ 6 := by
      simp only [List.mem_cons, List.not_mem_nil, or_false] at hk
      omega
    have hlen := hs.length_le
    have h7 : (scriptPat.take k).length = min k 7 := by
      simp [List.length_take, scriptPat]
    have h1s : (lowerStr [c]).length = 1 := by simp [lowerStr]
    rw [h7, h1s] at hlen
    have hkeq : k = 1 := by omega
    subst hkeq
    rcases hs with ⟨t, ht⟩
    have h1 : t = [] := by
      have := congrArg List.length ht
      simp only [List.length_append, List.length_take, lowerStr, List.length_map,
        List.length_singleton, scriptPat] at this
      have ht0 : t.length = 0 := by simpa using this
      exact List.eq_nil_of_length_eq_zero ht0
    subst h1
    simp only [List.nil_append, scriptPat] at ht
    have : asciiLower c = '<' := by
      have h2 := congrArg List.head? ht
      simpa [lowerStr] using h2.symm
    exact h (asciiLower_eq_lt this)

theorem good_brNewlines {m : Str} (hm : '<' ∉ m) : goodStr (brNewlines m) := by
  induction m using brNewlines.induct with
  | case1 rest ih =>
    rw [brNewlines]
    exact good_append (by decide) (ih (fun h => hm (by simp [h])))
  | case2 rest ih =>
    rw [brNewlines]
    exact good_append (by decide) (ih (fun h => hm (by simp [h])))
  | case3 c rest h1 h2 ih =>
    rw [brNewlines.eq_3 c rest h1 h2]
    have hc : c ≠ '<' := fun h => hm (by simp [h])
    exact good_append (good_single hc) (ih (fun h => hm (by simp [h])))
  | case4 => exact good_nil

/-- Every output of `escapeHtml` is script-free and right-extension safe:
its only `<` characters open `<br>` tags. -/
theorem good_escapeHtml (value : Str) : goodStr (escapeHtml value) := by
  unfold escapeHtml
  apply good_brNewlines
  apply no_lt_replaceAllChar _ _ _ (by decide)
  apply no_lt_replaceAllChar _ _ _ (by decide)
  apply no_lt_replaceAllChar _ _ _ (by decide)
  apply no_lt_replaceAllChar _ _ _ (by decide)
  exact no_lt_replaceAllChar_lt _ _ (by decide)

/-- The inline CSS constant `INLINE_STYLE` (source lines 215-589), as the
list of 200-character chunks whose concatenation is the trimmed style
text.  It contains no `<` character. -/
def STYLE_CHUNKS : List Str :=
  [ ":root \x7b\n  --color-bg: #f8fafc;\n  --color-bg-alt: #ffffff;\n  --color-text: #0f172a;\n  --color-text-muted: #64748b;\n  --color-text-subtle: #94a3b8;\n  --color-border: #e2e8f0;\n  --color-border-hover: #cb".data,
    "d5e1;\n  --color-accent: #6366f1;\n  --color-accent-light: #818cf8;\n  --color-accent-bg: rgba(99, 102, 241, 0.08);\n  --color-success: #10b981;\n  --color-code-bg: #1e293b;\n  --shadow-sm: 0 1px 2px rgba(1".data,
    "5, 23, 42, 0.04);\n  --shadow-md: 0 4px 12px rgba(15, 23, 42, 0.08);\n  --shadow-lg: 0 12px 40px rgba(15, 23, 42, 0.12);\n  --shadow-xl: 0 24px 64px rgba(15, 23, 42, 0.16);\n  --radius-sm: 8px;\n  --radius".data,
    "-md: 12px;\n  --radius-lg: 16px;\n  --radius-xl: 24px;\n  --font-sans: -apple-system, BlinkMacSystemFont, \"Segoe UI\", Roboto, Oxygen-Sans, Ubuntu, Cantarell, \"Helvetica Neue\", Arial, sans-serif;\n  --font".data,
    "-mono: \"SF Mono\", \"JetBrains Mono\", Menlo, Monaco, Consolas, \"Roboto Mono\", \"Ubuntu Monospace\", \"Lucida Console\", monospace;\n  --transition-fast: 150ms cubic-bezier(0.4, 0, 0.2, 1);\n  --transition-bas".data,
    "e: 200ms cubic-bezier(0.4, 0, 0.2, 1);\n  --transition-slow: 300ms cubic-bezier(0.4, 0, 0.2, 1);\n  color-scheme: light dark;\n\x7d\n@media (prefers-color-scheme: dark) \x7b\n  :root \x7b\n    --color-bg: #0f172a;\n ".data,
    "   --color-bg-alt: #1e293b;\n    --color-text: #f1f5f9;\n    --color-text-muted: #94a3b8;\n    --color-text-subtle: #64748b;\n    --color-border: #334155;\n    --color-border-hover: #475569;\n    --color-ac".data,
    "cent: #818cf8;\n    --color-accent-light: #a5b4fc;\n    --color-accent-bg: rgba(129, 140, 248, 0.12);\n    --color-code-bg: #0f172a;\n    --shadow-sm: 0 1px 2px rgba(0, 0, 0, 0.2);\n    --shadow-md: 0 4px ".data,
    "12px rgba(0, 0, 0, 0.3);\n    --shadow-lg: 0 12px 40px rgba(0, 0, 0, 0.4);\n    --shadow-xl: 0 24px 64px rgba(0, 0, 0, 0.5);\n  \x7d\n\x7d\n* \x7b box-sizing: border-box; \x7d\nhtml \x7b scroll-behavior: smooth; \x7d\nbody \x7b\n".data,
    "  margin: 0;\n  padding: 0;\n  font-family: var(--font-sans);\n  font-size: 16px;\n  line-height: 1.7;\n  color: var(--color-text);\n  background: var(--color-bg);\n  min-height: 100vh;\n  -webkit-font-smooth".data,
    "ing: antialiased;\n  -moz-osx-font-smoothing: grayscale;\n\x7d\n.page-wrapper \x7b\n  position: relative;\n  min-height: 100vh;\n  padding: clamp(24px, 5vw, 64px);\n\x7d\n.page-wrapper::before \x7b\n  content: \x27\x27;\n  posit".data,
    "ion: fixed;\n  inset: 0;\n  background:\n    radial-gradient(ellipse 80% 60% at 10% 0%, var(--color-accent-bg), transparent 50%),\n    radial-gradient(ellipse 60% 50% at 90% 10%, rgba(45, 212, 191, 0.06),".data,
    " transparent 40%),\n    radial-gradient(ellipse 50% 80% at 50% 100%, rgba(251, 146, 60, 0.04), transparent 50%);\n  pointer-events: none;\n  z-index: -1;\n\x7d\n.container \x7b\n  max-width: 860px;\n  margin: 0 au".data,
    "to;\n  position: relative;\n\x7d\nh1, h2, h3, h4, h5, h6 \x7b\n  color: var(--color-text);\n  line-height: 1.3;\n  margin: 0 0 0.5em;\n  font-weight: 600;\n  letter-spacing: -0.02em;\n\x7d\nh1 \x7b\n  font-size: clamp(1.75r".data,
    "em, 4vw, 2.5rem);\n  font-weight: 700;\n  letter-spacing: -0.03em;\n  margin-bottom: 0.75em;\n\x7d\nh2 \x7b\n  font-size: 1.125rem;\n  font-weight: 600;\n  color: var(--color-text-muted);\n  text-transform: uppercas".data,
    "e;\n  letter-spacing: 0.05em;\n  margin-top: 2.5em;\n  margin-bottom: 1em;\n  padding-bottom: 0.5em;\n  border-bottom: 1px solid var(--color-border);\n\x7d\nh2::before \x7b\n  content: \x27\x27;\n  display: inline-block;\n".data,
    "  width: 3px;\n  height: 1em;\n  background: var(--color-accent);\n  border-radius: 2px;\n  margin-right: 0.75em;\n  vertical-align: middle;\n\x7d\nh3 \x7b font-size: 1.25rem; margin-top: 1.75em; \x7d\nh4 \x7b font-size:".data,
    " 1.125rem; margin-top: 1.5em; \x7d\np \x7b\n  margin: 0 0 1.25em;\n  color: var(--color-text);\n\x7d\na \x7b\n  color: var(--color-accent);\n  text-decoration: none;\n  font-weight: 500;\n  transition: color var(--transit".data,
    "ion-fast);\n\x7d\na:hover \x7b\n  color: var(--color-accent-light);\n  text-decoration: underline;\n  text-underline-offset: 2px;\n\x7d\ncode, pre \x7b\n  font-family: var(--font-mono);\n  font-feature-settings: \"calt\" 1,".data,
    " \"liga\" 1, \"ss01\" 1;\n\x7d\ncode \x7b\n  background: var(--color-accent-bg);\n  color: var(--color-accent);\n  padding: 0.2em 0.45em;\n  border-radius: var(--radius-sm);\n  font-size: 0.875em;\n  font-weight: 500;\n".data,
    "\x7d\n.code-block \x7b\n  position: relative;\n  margin: 1.5em 0;\n  border-radius: var(--radius-lg);\n  overflow: hidden;\n  border: 1px solid var(--color-border);\n  box-shadow: var(--shadow-lg);\n  background: v".data,
    "ar(--color-code-bg);\n\x7d\n.code-header \x7b\n  position: absolute;\n  top: 0;\n  left: 0;\n  right: 0;\n  height: 42px;\n  display: flex;\n  align-items: center;\n  justify-content: space-between;\n  padding: 0 16px".data,
    ";\n  background: rgba(255, 255, 255, 0.03);\n  border-bottom: 1px solid rgba(255, 255, 255, 0.06);\n\x7d\n.code-dots \x7b\n  display: flex;\n  gap: 6px;\n\x7d\n.code-dots span \x7b\n  width: 10px;\n  height: 10px;\n  border".data,
    "-radius: 50%;\n  background: rgba(255, 255, 255, 0.1);\n\x7d\n.code-dots span:nth-child(1) \x7b background: #ff5f57; \x7d\n.code-dots span:nth-child(2) \x7b background: #febc2e; \x7d\n.code-dots span:nth-child(3) \x7b backg".data,
    "round: #28c840; \x7d\n.code-lang \x7b\n  font-size: 0.75rem;\n  font-weight: 500;\n  color: rgba(255, 255, 255, 0.5);\n  text-transform: uppercase;\n  letter-spacing: 0.05em;\n\x7d\npre \x7b\n  background: transparent;\n  ".data,
    "color: #e2e8f0;\n  padding: 56px 20px 20px;\n  overflow: auto;\n  margin: 0;\n  font-size: 0.875rem;\n  line-height: 1.7;\n\x7d\npre code \x7b background: none; padding: 0; color: inherit; \x7d\nblockquote \x7b\n  margin:".data,
    " 1.5em 0;\n  padding: 1em 1.25em;\n  border-left: 3px solid var(--color-accent);\n  background: var(--color-accent-bg);\n  color: var(--color-text);\n  border-radius: 0 var(--radius-md) var(--radius-md) 0;".data,
    "\n  font-style: italic;\n\x7d\nblockquote p:last-child \x7b margin-bottom: 0; \x7d\ntable \x7b\n  border-collapse: collapse;\n  margin: 1.5em 0;\n  width: 100%;\n  overflow: hidden;\n  border-radius: var(--radius-md);\n  b".data,
    "ox-shadow: var(--shadow-md);\n  background: var(--color-bg-alt);\n\x7d\nth, td \x7b\n  padding: 12px 16px;\n  border: 1px solid var(--color-border);\n  text-align: left;\n\x7d\nth \x7b\n  background: var(--color-accent-bg".data,
    ");\n  font-weight: 600;\n  font-size: 0.875rem;\n  text-transform: uppercase;\n  letter-spacing: 0.03em;\n  color: var(--color-text-muted);\n\x7d\ntr:hover \x7b background: var(--color-accent-bg); \x7d\nul, ol \x7b\n  pad".data,
    "ding-left: 1.5em;\n  margin: 1em 0;\n\x7d\nli \x7b margin: 0.5em 0; \x7d\nli::marker \x7b color: var(--color-accent); \x7d\nhr \x7b\n  border: 0;\n  height: 1px;\n  background: linear-gradient(90deg, transparent, var(--color-b".data,
    "order), transparent);\n  margin: 3em 0;\n\x7d\n.article \x7b\n  background: var(--color-bg-alt);\n  padding: clamp(28px, 5vw, 48px);\n  border-radius: var(--radius-xl);\n  border: 1px solid var(--color-border);\n  ".data,
    "box-shadow: var(--shadow-xl);\n  position: relative;\n  overflow: hidden;\n\x7d\n.article::before \x7b\n  content: \x27\x27;\n  position: absolute;\n  top: 0;\n  left: 0;\n  right: 0;\n  height: 3px;\n  background: linear-g".data,
    "radient(90deg, var(--color-accent), #06b6d4, #10b981);\n\x7d\n.header \x7b\n  margin-bottom: 2em;\n  padding-bottom: 1.5em;\n  border-bottom: 1px solid var(--color-border);\n\x7d\n.meta-row \x7b\n  display: inline-flex;\n".data,
    "  gap: 10px;\n  align-items: center;\n  flex-wrap: wrap;\n  margin-bottom: 1em;\n\x7d\n.pill \x7b\n  display: inline-flex;\n  align-items: center;\n  gap: 8px;\n  padding: 6px 12px;\n  border-radius: 9999px;\n  backgr".data,
    "ound: var(--color-accent-bg);\n  color: var(--color-text-muted);\n  border: 1px solid var(--color-border);\n  font-size: 0.8125rem;\n  font-weight: 500;\n  transition: all var(--transition-fast);\n\x7d\n.pill:h".data,
    "over \x7b\n  border-color: var(--color-accent);\n  background: var(--color-accent-bg);\n\x7d\n.pill a \x7b\n  color: inherit;\n  font-weight: inherit;\n\x7d\n.toc \x7b\n  margin: 0 0 2em;\n  padding: 20px 24px;\n  background: ".data,
    "var(--color-bg);\n  border: 1px solid var(--color-border);\n  border-radius: var(--radius-lg);\n\x7d\n.toc-title \x7b\n  margin: 0 0 0.75em;\n  font-size: 0.875rem;\n  font-weight: 600;\n  text-transform: uppercase".data,
    ";\n  letter-spacing: 0.05em;\n  color: var(--color-text-muted);\n\x7d\n.toc ul \x7b margin: 0; padding-left: 0; list-style: none; \x7d\n.toc li \x7b margin: 0.4em 0; \x7d\n.toc a \x7b\n  color: var(--color-text-muted);\n  font".data,
    "-size: 0.9375rem;\n  transition: color var(--transition-fast);\n\x7d\n.toc a:hover \x7b color: var(--color-accent); \x7d\n.message \x7b margin-bottom: 2em; \x7d\n.message:last-child \x7b margin-bottom: 0; \x7d\n.hljs \x7b color: #".data,
    "e2e8f0; background: transparent; \x7d\n.hljs-keyword, .hljs-selector-tag, .hljs-literal, .hljs-section, .hljs-link \x7b color: #c4b5fd; \x7d\n.hljs-function .hljs-title, .hljs-title.class_, .hljs-title.function_".data,
    " \x7b color: #67e8f9; \x7d\n.hljs-attr, .hljs-name, .hljs-tag \x7b color: #7dd3fc; \x7d\n.hljs-string, .hljs-meta .hljs-string \x7b color: #a5f3c4; \x7d\n.hljs-number, .hljs-regexp, .hljs-variable \x7b color: #fda4af; \x7d\n.hlj".data,
    "s-built_in, .hljs-builtin-name \x7b color: #fcd34d; \x7d\n.hljs-comment, .hljs-quote \x7b color: #64748b; font-style: italic; \x7d\n.hljs-addition \x7b color: #4ade80; background: rgba(74, 222, 128, 0.1); \x7d\n.hljs-dele".data,
    "tion \x7b color: #f87171; background: rgba(248, 113, 113, 0.1); \x7d\n.footer \x7b\n  margin-top: 3em;\n  padding-top: 1.5em;\n  border-top: 1px solid var(--color-border);\n  text-align: center;\n  color: var(--colo".data,
    "r-text-subtle);\n  font-size: 0.875rem;\n\x7d\n.scroll-top \x7b\n  position: fixed;\n  bottom: 24px;\n  right: 24px;\n  width: 44px;\n  height: 44px;\n  border-radius: 50%;\n  background: var(--color-accent);\n  color".data,
    ": white;\n  border: none;\n  cursor: pointer;\n  display: flex;\n  align-items: center;\n  justify-content: center;\n  opacity: 0;\n  visibility: hidden;\n  transition: all var(--transition-base);\n  box-shado".data,
    "w: var(--shadow-lg);\n\x7d\n.scroll-top.visible \x7b opacity: 1; visibility: visible; \x7d\n.scroll-top:hover \x7b transform: translateY(-2px); box-shadow: var(--shadow-xl); \x7d\n@media print \x7b\n  body \x7b background: whi".data,
    "te !important; color: black !important; padding: 24px !important; \x7d\n  .page-wrapper::before \x7b display: none; \x7d\n  .article \x7b box-shadow: none !important; border: 1px solid #e5e7eb !important; \x7d\n  .arti".data,
    "cle::before \x7b display: none; \x7d\n  pre \x7b page-break-inside: avoid; background: #f1f5f9 !important; color: #1e293b !important; \x7d\n  h2, h3 \x7b page-break-after: avoid; color: black !important; \x7d\n  .scroll-t".data,
    "op \x7b display: none !important; \x7d\n  a \x7b color: #2563eb !important; \x7d\n\x7d\n@media (max-width: 640px) \x7b\n  .article \x7b padding: 20px; border-radius: var(--radius-lg); \x7d\n  .meta-row \x7b flex-direction: column; a".data,
    "lign-items: flex-start; \x7d\n  .pill \x7b font-size: 0.75rem; \x7d\n  pre \x7b font-size: 0.8rem; padding: 48px 16px 16px; \x7d\n\x7d".data ]

/-- The inline CSS, reassembled. -/
def INLINE_STYLE : Str := STYLE_CHUNKS.flatten

theorem no_lt_INLINE_STYLE : '<' ∉ INLINE_STYLE := by
  intro h
  rcases List.mem_flatten.mp h with ⟨chunk, hc, hmem⟩
  have hall : ∀ c ∈ STYLE_CHUNKS, '<' ∉ c := by decide
  exact hall chunk hc hmem

theorem good_INLINE_STYLE : goodStr INLINE_STYLE := good_of_no_lt no_lt_INLINE_STYLE

/-! ### Heading slugs and the table of contents -/

/-- A decimal digit character. -/
def digitChar (n : Nat) : Char :=
  if n = 0 then '0' else if n = 1 then '1' else if n = 2 then '2'
  else if n = 3 then '3' else if n = 4 then '4' else if n = 5 then '5'
  else if n = 6 then '6' else if n = 7 then '7' else if n = 8 then '8' else '9'

/-- Decimal rendering of a natural number (JS number-to-string for the
non-negative integers that occur here). -/
def natToStr (n : Nat) : Str :=
  if h : n < 10 then [digitChar n]
  else natToStr (n / 10) ++ [digitChar (n % 10)]
termination_by n
decreasing_by
  exact Nat.div_lt_self (by omega) (by omega)

theorem digitChar_ne_lt (n : Nat) : digitChar n ≠ '<' := by
  unfold digitChar
  split <;> try simp
  all_goals split <;> first
    | simp
    | (split <;> first
        | simp
        | (split <;> first
            | simp
            | (split <;> first
                | simp
                | (split <;> first
                    | simp
                    | (split <;> first
                        | simp
                        | (split <;> first
                            | simp
                            | (split <;> simp)))))))

theorem no_lt_natToStr (n : Nat) : '<' ∉ natToStr n := by
  induction n using natToStr.induct with
  | case1 n h =>
    rw [natToStr, dif_pos h]
    simp only [List.mem_singleton]
    exact fun he => digitChar_ne_lt n he.symm
  | case2 n h ih =>
    rw [natToStr, dif_neg h]
    intro hin
    rcases List.mem_append.mp hin with h1 | h2
    · exact ih h1
    · simp only [List.mem_singleton] at h2
      exact digitChar_ne_lt (n % 10) h2.symm

/-- Replace every maximal whitespace run by a single hyphen
(`replace(/\s+/g, '-')`). -/
def wsRunsToHyphen : Str → Str
  | [] => []
  | c :: rest =>
    if isJsWs c then '-' :: wsRunsToHyphen (rest.dropWhile (fun x => isJsWs x))
    else c :: wsRunsToHyphen rest
termination_by l => l.length
decreasing_by
  all_goals simp only [List.length_cons]
  all_goals first
    | exact Nat.lt_succ_of_le (List.Sublist.length_le (List.dropWhile_sublist _))
    | omega

/-- The slug base of `headingSlug` (source lines 591-597): lower-case the
text (`uniLower` embeds the external Unicode lower-casing), strip every
character that is not a letter, number, whitespace or hyphen
(`isLetterOrNum` embeds the `\p{L}\p{N}` Unicode property tables), trim,
and turn whitespace runs into hyphens. -/
def slugBase (isLetterOrNum : Char → Bool) (uniLower : Char → Char) (text : Str) : Str :=
  wsRunsToHyphen (jsTrim ((text.map uniLower).filter
    (fun c => isLetterOrNum c || isJsWs c || c = '-')))

/-- One `counts.set` update on the association-list embedding of the
slug-collision `Map`. -/
def alistSet (k : Str) (v : Nat) : List (Str × Nat) → List (Str × Nat)
  | [] => [(k, v)]
  | e :: rest => if e.1 = k then (k, v) :: rest else e :: alistSet k v rest

/-- `headingSlug` (source lines 591-601): base slug, `section` fallback,
collision counter suffix. -/
def headingSlug (isLetterOrNum : Char → Bool) (uniLower : Char → Char)
    (text : Str) (counts : List (Str × Nat)) : Str × List (Str × Nat) :=
  let base := slugBase isLetterOrNum uniLower text
  let finalBase := if base = [] then "section".data else base
  let existing := ((counts.find? (fun e => e.1 = finalBase)).map (fun e => e.2)).getD 0
  let counts' := alistSet finalBase (existing + 1) counts
  (if existing = 0 then finalBase else finalBase ++ '-' :: natToStr existing, counts')

/-- The heading collection of the `heading_open` renderer rule (source
lines 639-653): markdown-it reports `(level, text)` pairs in order (the
external engine is the `mdHeadings` parameter); ids are assigned through
the shared `counts` map. -/
def assignSlugs (isLetterOrNum : Char → Bool) (uniLower : Char → Char) :
    List (Nat × Str) → List (Str × Nat) → List (Nat × Str × Str)
  | [], _ => []
  | (lvl, text) :: rest, counts =>
    let r := headingSlug isLetterOrNum uniLower text counts
    (lvl, text, r.1) :: assignSlugs isLetterOrNum uniLower rest r.2

theorem mem_wsRunsToHyphen {c : Char} {l : Str} (h : c ∈ wsRunsToHyphen l) :
    c = '-' ∨ c ∈ l := by
  induction l using wsRunsToHyphen.induct with
  | case1 => simp [wsRunsToHyphen] at h
  | case2 d rest hd ih =>
    rw [wsRunsToHyphen, if_pos hd] at h
    rcases List.mem_cons.mp h with rfl | hmem
    · exact Or.inl rfl
    · rcases ih hmem with h1 | h2
      · exact Or.inl h1
      · exact Or.inr (List.mem_cons_of_mem d
          ((List.dropWhile_sublist _).subset h2))
  | case3 d rest hd ih =>
    rw [wsRunsToHyphen, if_neg hd] at h
    rcases List.mem_cons.mp h with rfl | hmem
    · exact Or.inr (List.mem_cons_self _ _)
    · rcases ih hmem with h1 | h2
      · exact Or.inl h1
      · exact Or.inr (List.mem_cons_of_mem d h2)

theorem no_lt_headingSlug (isLetterOrNum : Char → Bool) (uniLower : Char → Char)
    (text : Str) (counts : List (Str × Nat)) (hW : isLetterOrNum '<' = false) :
    '<' ∉ (headingSlug isLetterOrNum uniLower text counts).1 := by
  have hbase : '<' ∉ slugBase isLetterOrNum uniLower text := by
    intro hin
    rcases mem_wsRunsToHyphen hin with h1 | h2
    · exact absurd h1 (by decide)
    · have h3 : '<' ∈ (text.map uniLower).filter
          (fun c => isLetterOrNum c || isJsWs c || c = '-') :=
        (jsTrim_within _).sublist.subset h2
      have h4 := List.of_mem_filter h3
      simp [hW] at h4
      exact absurd h4 (by decide)
  intro hin
  unfold headingSlug at hin
  simp only at hin
  by_cases hb : slugBase isLetterOrNum uniLower text = []
  · rw [if_pos hb] at hin
    by_cases he : (((counts.find? (fun e => e.1 = "section".data)).map
        (fun e => e.2)).getD 0) = 0
    · rw [if_pos ?_] at hin
      · exact absurd hin (by decide)
      · exact he
    · rw [if_neg ?_] at hin
      · rcases List.mem_append.mp hin with h1 | h2
        · exact absurd h1 (by decide)
        · rcases List.mem_cons.mp h2 with h3 | h4
          · exact absurd h3 (by decide)
          · exact no_lt_natToStr _ h4
      · exact he
  · rw [if_neg hb] at hin
    by_cases he : (((counts.find? (fun e =>
        e.1 = slugBase isLetterOrNum uniLower text)).map (fun e => e.2)).getD 0) = 0
    · rw [if_pos ?_] at hin
      · exact hbase hin
      · exact he
    · rw [if_neg ?_] at hin
      · rcases List.mem_append.mp hin with h1 | h2
        · exact hbase h1
        · rcases List.mem_cons.mp h2 with h3 | h4
          · exact absurd h3 (by decide)
          · exact no_lt_natToStr _ h4
      · exact he

/-! Literal segments of the HTML document template (source lines 683-714)
and of the table-of-contents block (source lines 673-681). -/

/-- Template segment 0 of `renderHtmlDocument`. -/
def TPL0 : Str := "<!doctype html>\n<html lang=\"en\">\n<head>\n  <meta charset=\"utf-8\" />\n  <meta name=\"viewport\" content=\"width=device-width, initial-scale=1\" />\n  <meta name=\"color-scheme\" content=\"light dark\" />\n  <title>".data

/-- Template segment 1 of `renderHtmlDocument`. -/
def TPL1 : Str := "</title>\n  <style>".data

/-- Template segment 2 of `renderHtmlDocument`. -/
def TPL2 : Str := "</style>\n</head>\n<body>\n  <div class=\"page-wrapper\">\n    <div class=\"container\">\n      <article class=\"article\">\n        <header class=\"header\">\n          <div class=\"meta-row\">\n            <span class=\"pill\">ðŸ”— <a href=\"".data

/-- Template segment 3 of `renderHtmlDocument`. -/
def TPL3 : Str := "\" target=\"_blank\" rel=\"noreferrer noopener\">Source</a></span>\n            <span class=\"pill\">ðŸ“… ".data

/-- Template segment 4 of `renderHtmlDocument`. -/
def TPL4 : Str := "</span>\n          </div>\n          <h1>".data

/-- Template segment 5 of `renderHtmlDocument`. -/
def TPL5 : Str := "</h1>\n        </header>\n        ".data

/-- Template segment 6 of `renderHtmlDocument`. -/
def TPL6 : Str := "\n        <div class=\"content\">\n          ".data

/-- Template segment 7 of `renderHtmlDocument`. -/
def TPL7 : Str := "\n        </div>\n        <footer class=\"footer\">\n          Exported with <a href=\"https://github.com/Dicklesworthstone/chat_shared_conversation_to_file\" target=\"_blank\">csctf</a>\n        </footer>\n      </article>\n    </div>\n  </div>\n</body>\n</html>".data

/-- Table-of-contents wrapper segment 0. -/
def TOCW0 : Str := "<div class=\"toc\">\n    <div class=\"toc-title\">Contents</div>\n    <ul>\n      ".data

/-- Table-of-contents wrapper segment 1. -/
def TOCW1 : Str := "\n    </ul>\n  </div>".data

/-- Table-of-contents entry segment 0. -/
def TOCE0 : Str := "<li style=\"margin-left:".data

/-- Table-of-contents entry segment 1. -/
def TOCE1 : Str := "px\"><a href=\"#".data

/-- Table-of-contents entry segment 2. -/
def TOCE2 : Str := "\">".data

/-- Table-of-contents entry segment 3. -/
def TOCE3 : Str := "</a></li>".data

/-- One table-of-contents entry (source line 677). -/
def tocEntry (h : Nat × Str × Str) : Str :=
  TOCE0 ++ natToStr ((h.1 - 2) * 16) ++ TOCE1 ++ h.2.2 ++ TOCE2 ++
    escapeHtml h.2.1 ++ TOCE3

/-- The table-of-contents block (source lines 671-681): empty when no
heading of level 2-4 was collected. -/
def tocBlock (entries : List Str) : Str :=
  TOCW0 ++ List.intercalate ['\n'] entries ++ TOCW1

/-- `renderHtmlDocument` (source lines 615-715).  The external markdown-it
renderer is the parameter `mdRender`; the `(level, text)` pairs its
`heading_open` rule observes, in order, are the parameter `mdHeadings`;
`isLetterOrNum` and `uniLower` embed the Unicode tables used by the slug
code.  Script/style tags are escaped in the markdown before rendering and
again on the rendered output; the title, source and timestamp are
HTML-escaped; the timestamp keeps only its date part (before `T`). -/
def renderHtmlDocument (mdRender : Str → Str) (mdHeadings : Str → List (Nat × Str))
    (isLetterOrNum : Char → Bool) (uniLower : Char → Char)
    (markdown title source retrieved : Str) : Str :=
  let safeMarkdown := escapeExecutableTags markdown
  let rendered := mdRender safeMarkdown
  let body := escapeExecutableTags rendered
  let headings := assignSlugs isLetterOrNum uniLower (mdHeadings safeMarkdown) []
  let safeTitle := escapeHtml (stripProviderPrefix title)
  let safeSource := escapeHtml source
  let safeRetrieved := escapeHtml retrieved
  let tocHeadings := headings.filter (fun h => 2 ≤ h.1 ∧ h.1 ≤ 4)
  let toc :=
    if 0 < tocHeadings.length then tocBlock (tocHeadings.map tocEntry) else []
  TPL0 ++ safeTitle ++ TPL1 ++ INLINE_STYLE ++ TPL2 ++ safeSource ++ TPL3 ++
    safeRetrieved.takeWhile (fun c => c ≠ 'T') ++ TPL4 ++ safeTitle ++ TPL5 ++
    toc ++ TPL6 ++ body ++ TPL7

theorem good_brNewlines_takeWhile {m : Str} (hm : '<' ∉ m) :
    goodStr ((brNewlines m).takeWhile (fun c => c ≠ 'T')) := by
  induction m using brNewlines.induct with
  | case1 rest ih =>
    rw [brNewlines]
    rw [List.takeWhile_append]
    rw [if_pos (by decide)]
    exact good_append (by decide) (ih (fun h => hm (by simp [h])))
  | case2 rest ih =>
    rw [brNewlines]
    rw [List.takeWhile_append]
    rw [if_pos (by decide)]
    exact good_append (by decide) (ih (fun h => hm (by simp [h])))
  | case3 c rest h1 h2 ih =>
    rw [brNewlines.eq_3 c rest h1 h2]
    rw [List.takeWhile_cons]
    by_cases hT : c = 'T'
    · rw [if_neg (by simp [hT])]
      exact good_nil
    · rw [if_pos (by simp [hT])]
      have hc : c ≠ '<' := fun h => hm (by simp [h])
      exact good_append (good_single hc) (ih (fun h => hm (by simp [h])))
  | case4 => exact good_nil

/-- The date part of the escaped timestamp is script-free and safe. -/
theorem good_retrieved_date (retrieved : Str) :
    goodStr ((escapeHtml retrieved).takeWhile (fun c => c ≠ 'T')) := by
  unfold escapeHtml
  apply good_brNewlines_takeWhile
  apply no_lt_replaceAllChar _ _ _ (by decide)
  apply no_lt_replaceAllChar _ _ _ (by decide)
  apply no_lt_replaceAllChar _ _ _ (by decide)
  apply no_lt_replaceAllChar _ _ _ (by decide)
  exact no_lt_replaceAllChar_lt _ _ (by decide)

theorem good_intercalate {es : List Str} (h : ∀ e ∈ es, goodStr e) :
    goodStr (List.intercalate ['\n'] es) := by
  induction es with
  | nil => exact good_nil
  | cons e rest ih =>
    cases rest with
    | nil => simpa [List.intercalate, List.intersperse] using h e (by simp)
    | cons f rest' =>
      have heq : List.intercalate ['\n'] (e :: f :: rest') =
          e ++ ['\n'] ++ List.intercalate ['\n'] (f :: rest') := by
        simp [List.intercalate, List.intersperse]
      rw [heq]
      exact good_append (good_append (h e (by simp)) (by decide))
        (ih (fun x hx => h x (by simp [hx])))

theorem no_lt_assignSlugs (isLetterOrNum : Char → Bool) (uniLower : Char → Char)
    (hW : isLetterOrNum '<' = false) :
    ∀ (hs : List (Nat × Str)) (counts : List (Str × Nat)) h,
      h ∈ assignSlugs isLetterOrNum uniLower hs counts → '<' ∉ h.2.2 := by
  intro hs
  induction hs with
  | nil => intro counts h hmem; simp [assignSlugs] at hmem
  | cons p rest ih =>
    intro counts h hmem
    rw [show p = (p.1, p.2) from rfl, assignSlugs] at hmem
    rcases List.mem_cons.mp hmem with rfl | hmem2
    · exact no_lt_headingSlug isLetterOrNum uniLower p.2 counts hW
    · exact ih _ h hmem2

theorem good_tocEntry (h : Nat × Str × Str) (hid : '<' ∉ h.2.2) :
    goodStr (tocEntry h) := by
  unfold tocEntry
  exact good_append (good_append (good_append (good_append (good_append
    (good_append (by decide) (good_of_no_lt (no_lt_natToStr _))) (by decide))
    (good_of_no_lt hid)) (by decide)) (good_escapeHtml _)) (by decide)

/-- C5: the HTML document produced by `renderHtmlDocument` contains no
unescaped `<script` (even case-insensitively), for every markdown input,
title, source, timestamp and every behaviour of the external markdown
renderer and Unicode tables (the only assumption being that `<` is not a
Unicode letter or number); moreover `escapeExecutableTags` — applied to
the markdown before rendering and to the rendered output again — always
yields a script-free string, and it escapes literal script/style tags to
visible text rather than stripping them, as the concrete evaluation shows. -/
theorem renderHtmlDocument_script_free (mdRender : Str → Str)
    (mdHeadings : Str → List (Nat × Str)) (isLetterOrNum : Char → Bool)
    (uniLower : Char → Char) (markdown title source retrieved : Str)
    (hW : isLetterOrNum '<' = false) :
    noScript (renderHtmlDocument mdRender mdHeadings isLetterOrNum uniLower
      markdown title source retrieved) ∧
    (∀ s, noScript (escapeExecutableTags s)) ∧
    escapeExecutableTags "<script>alert(1)</script><style>x</style>".data =
      "&lt;script>alert(1)&lt;/script&gt;&lt;style>x&lt;/style&gt;".data := by
  refine ⟨?_, escapeExecutableTags_noScript,
    by simp +decide [escapeExecutableTags, replaceCI]⟩
  unfold renderHtmlDocument
  simp only []
  have hgoodToc : goodStr (if 0 < ((assignSlugs isLetterOrNum uniLower
      (mdHeadings (escapeExecutableTags markdown)) []).filter
        (fun h => 2 ≤ h.1 ∧ h.1 ≤ 4)).length then
      tocBlock (((assignSlugs isLetterOrNum uniLower
        (mdHeadings (escapeExecutableTags markdown)) []).filter
          (fun h => 2 ≤ h.1 ∧ h.1 ≤ 4)).map tocEntry) else []) := by
    split
    · unfold tocBlock
      refine good_append (good_append (by decide) ?_) (by decide)
      apply good_intercalate
      intro e he
      rcases List.mem_map.mp he with ⟨h, hh, rfl⟩
      apply good_tocEntry
      exact no_lt_assignSlugs isLetterOrNum uniLower hW _ [] h
        (List.mem_filter.mp hh).1
    · exact good_nil
  have hgoodP : goodStr (TPL0 ++ escapeHtml (stripProviderPrefix title) ++ TPL1 ++
      INLINE_STYLE ++ TPL2 ++ escapeHtml source ++ TPL3 ++
      (escapeHtml retrieved).takeWhile (fun c => c ≠ 'T') ++ TPL4 ++
      escapeHtml (stripProviderPrefix title) ++ TPL5 ++
      (if 0 < ((assignSlugs isLetterOrNum uniLower
          (mdHeadings (escapeExecutableTags markdown)) []).filter
            (fun h => 2 ≤ h.1 ∧ h.1 ≤ 4)).length then
        tocBlock (((assignSlugs isLetterOrNum uniLower
          (mdHeadings (escapeExecutableTags markdown)) []).filter
            (fun h => 2 ≤ h.1 ∧ h.1 ≤ 4)).map tocEntry) else []) ++ TPL6) := by
    refine good_append (good_append (good_append (good_append (good_append
      (good_append (good_append (good_append (good_append (good_append
        (good_append (good_append (by decide) (good_escapeHtml _)) (by decide))
        good_INLINE_STYLE) (by decide)) (good_escapeHtml _)) (by decide))
      (good_retrieved_date retrieved)) (by decide)) (good_escapeHtml _))
      (by decide)) hgoodToc) (by decide)
  rw [List.append_assoc _ (escapeExecutableTags (mdRender (escapeExecutableTags
    markdown))) TPL7]
  exact noScript_append_of_tailSafe hgoodP.1
    (noScript_append_of_headSafe (escapeExecutableTags_noScript _)
      (by decide) (by decide))
    hgoodP.2

/-- Witness for C5 at concrete inputs (identity markdown renderer, one h2
heading, ASCII alphanumeric classifier). -/
theorem renderHtmlDocument_script_free_witness :
    ((fun c => c.isAlpha || c.isDigit) '<' = false) ∧
    (noScript (renderHtmlDocument (fun s => s) (fun _ => [(2, "Intro".data)])
        (fun c => c.isAlpha || c.isDigit) Char.toLower
        "# Hi\n<script>alert(1)</script>".data "Claude - T".data
        "https://example.com".data "2024-01-01T00:00:00.000Z".data) ∧
      (∀ s, noScript (escapeExecutableTags s)) ∧
      escapeExecutableTags "<script>alert(1)</script><style>x</style>".data =
        "&lt;script>alert(1)&lt;/script&gt;&lt;style>x&lt;/style&gt;".data) :=
  ⟨by decide,
    renderHtmlDocument_script_free (fun s => s) (fun _ => [(2, "Intro".data)])
      (fun c => c.isAlpha || c.isDigit) Char.toLower
      "# Hi\n<script>alert(1)</script>".data "Claude - T".data
      "https://example.com".data "2024-01-01T00:00:00.000Z".data (by decide)⟩

/-- C8: `renderHtmlDocument` is deterministic — it consults no clock,
randomness or ambient state (its embedding is a pure function of the
markdown, title, source and timestamp, with the markdown-it/highlight.js
engines fixed), so two calls on equal inputs return byte-identical
documents. -/
theorem renderHtmlDocument_deterministic (mdRender : Str → Str)
    (mdHeadings : Str → List (Nat × Str)) (isLetterOrNum : Char → Bool)
    (uniLower : Char → Char) (m₁ m₂ t₁ t₂ s₁ s₂ r₁ r₂ : Str)
    (hm : m₁ = m₂) (ht : t₁ = t₂) (hs : s₁ = s₂) (hr : r₁ = r₂) :
    renderHtmlDocument mdRender mdHeadings isLetterOrNum uniLower m₁ t₁ s₁ r₁ =
      renderHtmlDocument mdRender mdHeadings isLetterOrNum uniLower m₂ t₂ s₂ r₂ := by
  subst hm ht hs hr
  rfl

/-- Witness for C8 at concrete inputs. -/
theorem renderHtmlDocument_deterministic_witness :
    ("# A".data = "# A".data ∧ "T".data = "T".data ∧ "u".data = "u".data ∧
      "2024".data = "2024".data) ∧
    renderHtmlDocument (fun s => s) (fun _ => []) (fun c => c.isAlpha) Char.toLower
        "# A".data "T".data "u".data "2024".data =
      renderHtmlDocument (fun s => s) (fun _ => []) (fun c => c.isAlpha) Char.toLower
        "# A".data "T".data "u".data "2024".data :=
  ⟨⟨rfl, rfl, rfl, rfl⟩,
    renderHtmlDocument_deterministic (fun s => s) (fun _ => []) (fun c => c.isAlpha)
      Char.toLower "# A".data "# A".data "T".data "T".data "u".data "u".data
      "2024".data "2024".data rfl rfl rfl rfl⟩

end CSCTF
